import Mathlib

/-!
Verification development for the clients-repository system: a shallow
embedding of `validators.py`, `client.py`, `client_short.py`,
`base_clients_repo.py`, `file_filter_sort_decorator.py` and
`db_filter_sort_decorator.py`, with the theorems that settle the frozen
claims about it.

Modelling conventions:
* Python strings are `String`; `str.strip` is `pyStrip` (ASCII whitespace);
  `str.isalpha`/`str.isdigit`/`casefold` are modelled on their ASCII
  fragment through `Char.isAlpha`/`Char.isDigit`/`Char.toLower`.
* A Python value used as an `id` is `IdVal`: an `int`, a `str`, or an
  opaque other value (`otherV`, standing for any value on which `int()`
  raises and which is neither `int` nor `str`).
* A raw record (a JSON/YAML object) is `RawRecord`: every field optional,
  absent key and key-bound-to-None both `none`; non-`id` values are kept
  as strings (the validators `str()` their input, so a record whose field
  is already a string is the general case reachable from files).
* Raising is `Except`; the file/`_clean` sources of a repository are
  `Option (List RawRecord)` with `none` for `FileNotFoundError`.
* "today" (`datetime.date.today()`) is threaded as an explicit parameter.
-/

deriving instance DecidableEq for Except

namespace Lombard

/-! ## Character and string utilities -/

/-- Lower-casing one character: model of `str.casefold`/SQL `lower` on the
ASCII fragment. -/
def lc (c : Char) : Char := c.toLower

/-- Lower-casing a character list. -/
def lowerL (l : List Char) : List Char := l.map lc

/-- Whitespace as recognised by `str.strip` / the regex class `\s`
(ASCII fragment). -/
def isWS (c : Char) : Bool := c.isWhitespace

/-- `str.strip` on a character list. -/
def pyStripL (l : List Char) : List Char :=
  ((l.dropWhile isWS).reverse.dropWhile isWS).reverse

/-- `str.strip`. -/
def pyStrip (s : String) : String := ⟨pyStripL s.toList⟩

/-- `.replace(" ", "")`: removing every space character. -/
def removeSpaces (s : String) : String := ⟨s.toList.filter (fun c => c ≠ ' ')⟩

/-- Numeric value of a digit character. -/
def digitVal (c : Char) : Nat := c.toNat - 48

/-- Value of a two-digit group. -/
def val2 (a b : Char) : Nat := 10 * digitVal a + digitVal b

/-- Value of a four-digit group. -/
def val4 (a b c d : Char) : Nat :=
  1000 * digitVal a + 100 * digitVal b + 10 * digitVal c + digitVal d

/-- Substring containment on character lists: model of
`hay.find(needle) >= 0`. -/
def containsL (hay needle : List Char) : Bool :=
  needle.isPrefixOf hay ||
    match hay with
    | [] => false
    | _ :: t => containsL t needle

/-- Two consecutive dots somewhere in the list: model of `".." in s`. -/
def hasDoubleDot : List Char → Bool
  | '.' :: '.' :: _ => true
  | _ :: rest => hasDoubleDot rest
  | [] => false

/-- `s.split(sep)` for a one-character separator; always returns a
non-empty list of (possibly empty) chunks, like Python `str.split`. -/
def splitOnChar (sep : Char) : List Char → List (List Char)
  | [] => [[]]
  | c :: cs =>
    match splitOnChar sep cs with
    | [] => [[]]
    | r :: rs => if c = sep then [] :: r :: rs else (c :: r) :: rs

/-! ## Dates (model of `datetime.date`) -/

/-- A calendar date; validity is a separate predicate, as in Python where
`date(y, m, d)` raises on invalid components. -/
structure Date where
  year : Nat
  month : Nat
  day : Nat
deriving DecidableEq

/-- Order-embedding code: on real dates (month ≤ 12, day ≤ 31) it orders
exactly like `datetime.date`'s component-wise comparison. -/
def Date.code (d : Date) : Nat := d.year * 10000 + d.month * 100 + d.day

/-- `a <= b` on dates. -/
def dateLeB (a b : Date) : Bool := a.code ≤ b.code

/-- `a < b` on dates. -/
def dateLtB (a b : Date) : Bool := a.code < b.code

def isLeapYear (y : Nat) : Bool :=
  y % 4 = 0 && (y % 100 ≠ 0 || y % 400 = 0)

def daysInMonth (y m : Nat) : Nat :=
  if m = 2 then (if isLeapYear y then 29 else 28)
  else if m = 4 ∨ m = 6 ∨ m = 9 ∨ m = 11 then 30
  else 31

/-- Whether `date(y, m, d)` succeeds in Python (`datetime.MINYEAR = 1`,
`MAXYEAR = 9999`). -/
def dateExistsB (y m d : Nat) : Bool :=
  decide (1 ≤ y) && decide (y ≤ 9999) && decide (1 ≤ m) && decide (m ≤ 12) &&
    decide (1 ≤ d) && decide (d ≤ daysInMonth y m)

/-- `re.fullmatch(r"\d{2}-\d{2}-\d{4}", s)` followed by
`map(int, s.split("-"))`: the shared shape of the validator's format check
and of `datetime.strptime(s, "%d-%m-%Y")` on zero-padded input (the model
restricts `strptime` to the zero-padded form, the only one the system
produces). -/
def parseDMY (s : String) : Option (Nat × Nat × Nat) :=
  match s.toList with
  | [d1, d2, h1, m1, m2, h2, y1, y2, y3, y4] =>
    if h1 = '-' ∧ h2 = '-' ∧ ([d1, d2, m1, m2, y1, y2, y3, y4].all Char.isDigit)
    then some (val2 d1 d2, val2 m1 m2, val4 y1 y2 y3 y4)
    else none
  | _ => none

/-- `datetime.strptime(s, "%d-%m-%Y").date()`: format plus existence. -/
def pyStrptimeDMY? (s : String) : Option Date :=
  match parseDMY s with
  | some (dd, mm, yyyy) =>
    if dateExistsB yyyy mm dd then some ⟨yyyy, mm, dd⟩ else none
  | none => none

/-- `f"{n:02d}"` for `n ≤ 99`. -/
def pad2 (n : Nat) : List Char :=
  [Char.ofNat (48 + n / 10 % 10), Char.ofNat (48 + n % 10)]

/-- `f"{n:04d}"` for `n ≤ 9999`. -/
def pad4 (n : Nat) : List Char :=
  [Char.ofNat (48 + n / 1000 % 10), Char.ofNat (48 + n / 100 % 10),
   Char.ofNat (48 + n / 10 % 10), Char.ofNat (48 + n % 10)]

/-- `f"{dd:02d}-{mm:02d}-{yyyy:04d}"`. -/
def canonDMY (dd mm yyyy : Nat) : String :=
  ⟨pad2 dd ++ '-' :: pad2 mm ++ '-' :: pad4 yyyy⟩

/-- `d.strftime("%d-%m-%Y")`. -/
def dateToDDMMYYYY (d : Date) : String := canonDMY d.day d.month d.year

/-! ## Validators (`validators.py`, class `Validator`) -/

/-- Structured stand-ins for the `ValueError` messages the validators
raise; one constructor per distinct `raise` site that the claims care
about. -/
inductive VErr where
  | emptyField (name : String)
  | lettersOnly (field : String)
  | passportSeries
  | passportNumber
  | birthFormat
  | birthNonexistent
  | birthFuture
  | phonePlus
  | phoneShape
  | emailAt
  | emailLocalDot
  | emailLocalDoubleDot
  | emailLocalChars
  | emailDomainEdgeDot
  | emailDomainDoubleDot
  | emailDomainLabels
  | emailDomainEmptyLabel
  | emailDomainLabelChars
  | emailTld
  | missingFields (names : List String)
  | shortBadId
deriving DecidableEq

/-- `Validator.require_non_empty`. -/
def require_non_empty (name : String) (value : String) : Except VErr String :=
  let v := pyStrip value
  if v = "" then .error (.emptyField name) else .ok v

/-- `Validator.letters_only` (`str.isalpha` modelled on its ASCII
fragment). -/
def letters_only (field : String) (value : String) : Except VErr String := do
  let v ← require_non_empty field value
  if v.toList.all Char.isAlpha then pure v else throw (.lettersOnly field)

/-- `Validator.passport_series`. -/
def passport_series_v (value : String) : Except VErr String := do
  let v0 ← require_non_empty "passport_series" value
  let v := removeSpaces v0
  if v.toList.length = 4 ∧ v.toList.all Char.isDigit then pure v
  else throw .passportSeries

/-- `Validator.passport_number`. -/
def passport_number_v (value : String) : Except VErr String := do
  let v0 ← require_non_empty "passport_number" value
  let v := removeSpaces v0
  if v.toList.length = 6 ∧ v.toList.all Char.isDigit then pure v
  else throw .passportNumber

/-- `Validator.birth_date_dd_mm_yyyy`. -/
def birth_date_dd_mm_yyyy (today : Date) (value : String) :
    Except VErr String := do
  let v ← require_non_empty "birth_date" value
  match parseDMY v with
  | none => throw .birthFormat
  | some (dd, mm, yyyy) =>
    if dateExistsB yyyy mm dd then
      if dateLtB today ⟨yyyy, mm, dd⟩ then throw .birthFuture
      else pure (canonDMY dd mm yyyy)
    else throw .birthNonexistent

/-- `Validator._clean_phone`: `re.sub(r"[()\s\-]", "", s)`. -/
def clean_phone (s : String) : String :=
  ⟨s.toList.filter (fun c => ¬ (c = '(' ∨ c = ')' ∨ isWS c = true ∨ c = '-'))⟩

/-- `Validator.phone_ru_strict`. -/
def phone_ru_strict (value : String) : Except VErr String := do
  let v0 ← require_non_empty "phone" value
  let v := clean_phone v0
  let plusCount := v.toList.count '+'
  if plusCount > 1 ∨ (plusCount = 1 ∧ ¬ v.toList.head? = some '+') then
    throw .phonePlus
  else
    match v.toList with
    | '+' :: '7' :: rest =>
      if rest.length = 10 ∧ rest.all Char.isDigit then pure v
      else throw .phoneShape
    | '8' :: '9' :: rest =>
      if rest.length = 9 ∧ rest.all Char.isDigit then pure v
      else throw .phoneShape
    | _ => throw .phoneShape

/-- Characters the local part of an email may contain
(`[A-Za-z0-9._%+\-]`). -/
def emailLocalCharOk (c : Char) : Bool :=
  c.isAlpha || c.isDigit || c = '.' || c = '_' || c = '%' || c = '+' || c = '-'

/-- One domain label against `[A-Za-z0-9](?:[A-Za-z0-9\-]*[A-Za-z0-9])?`. -/
def emailLabelOk (l : List Char) : Bool :=
  match l with
  | [] => false
  | c :: rest =>
    (c.isAlpha || c.isDigit) &&
      (match rest.getLast? with
       | none => true
       | some lastC => (lastC.isAlpha || lastC.isDigit)) &&
      rest.all (fun x => x.isAlpha || x.isDigit || x = '-')

/-- The per-label loop of `email_strict`: empty label, then the label
regex, in the source's order. -/
def emailCheckLabels : List (List Char) → Except VErr Unit
  | [] => .ok ()
  | lab :: rest =>
    if lab = [] then throw .emailDomainEmptyLabel
    else if emailLabelOk lab then emailCheckLabels rest
    else throw .emailDomainLabelChars

/-- `Validator.email_strict`. -/
def email_strict (value : String) : Except VErr String := do
  let v ← require_non_empty "email" value
  let l := v.toList
  if l.count '@' ≠ 1 then throw .emailAt
  else
    let locPart := l.takeWhile (fun c => c ≠ '@')
    let domain := (l.dropWhile (fun c => c ≠ '@')).drop 1
    if locPart.head? = some '.' ∨ locPart.getLast? = some '.' then
      throw .emailLocalDot
    else if hasDoubleDot locPart then throw .emailLocalDoubleDot
    else if ¬ (locPart ≠ [] ∧ locPart.all emailLocalCharOk) then
      throw .emailLocalChars
    else if domain.head? = some '.' ∨ domain.getLast? = some '.' then
      throw .emailDomainEdgeDot
    else if hasDoubleDot domain then throw .emailDomainDoubleDot
    else
      let labels := splitOnChar '.' domain
      if labels.length < 2 then throw .emailDomainLabels
      else do
        emailCheckLabels labels
        match labels.getLast? with
        | some tld =>
          if 2 ≤ tld.length ∧ tld.all Char.isAlpha then pure v
          else throw .emailTld
        | none => throw .emailTld

/-- `Validator.address_required`. -/
def address_required (value : String) : Except VErr String :=
  require_non_empty "address" value

/-! ## Id values and raw records -/

/-- A Python value sitting in an `id` slot: an `int`, a `str`, or an
opaque other value (`otherV` stands for any value that is neither `int`
nor `str` and on which `int()` raises). -/
inductive IdVal where
  | intV (n : Int)
  | strV (s : String)
  | otherV (tag : String)
deriving DecidableEq

/-- `int(s)` on a string: optional surrounding whitespace, optional sign,
at least one digit (digit-group underscores are not modelled). -/
def pyDigits? (l : List Char) : Option Nat :=
  if l ≠ [] ∧ l.all Char.isDigit then
    some (l.foldl (fun acc c => acc * 10 + digitVal c) 0)
  else none

/-- `int(s)` for a Python string. -/
def pyIntOfString (s : String) : Option Int :=
  match (pyStrip s).toList with
  | '+' :: rest => (pyDigits? rest).map Int.ofNat
  | '-' :: rest => (pyDigits? rest).map (fun n => -(n : Int))
  | l => (pyDigits? l).map Int.ofNat

/-- `int(v)` for an arbitrary id value; `none` models `int()` raising. -/
def pyToInt : IdVal → Option Int
  | .intV n => some n
  | .strV s => pyIntOfString s
  | .otherV _ => none

/-- Python `==` between an id value and an `int` (`str == int` is `False`,
never an error). -/
def pyIdEq (v : IdVal) (t : Int) : Bool :=
  match v with
  | .intV n => n = t
  | _ => false

/-- A raw record as stored in a JSON/YAML array: every key optional;
absent key and key-bound-to-`None` are both `none`. -/
structure RawRecord where
  id : Option IdVal := none
  last_name : Option String := none
  first_name : Option String := none
  middle_name : Option String := none
  passport_series : Option String := none
  passport_number : Option String := none
  birth_date : Option String := none
  phone : Option String := none
  email : Option String := none
  address : Option String := none
deriving DecidableEq

/-! ## `Client` (`client.py`) -/

/-- A constructed `Client`: all fields have passed their setters, except
`id`, which is stored verbatim (its setter validates nothing). -/
structure Client where
  id : Option IdVal
  last_name : String
  first_name : String
  middle_name : String
  passport_series : String
  passport_number : String
  birth_date : String
  phone : String
  email : String
  address : String
deriving DecidableEq

/-- `Client._natural_key`: every field except `id` and `address` (the
tuple is modelled as a list, componentwise equality being the same). -/
def natural_key (c : Client) : List String :=
  [c.last_name, c.first_name, c.middle_name, c.birth_date,
   c.passport_series, c.passport_number, c.phone, c.email]

/-- `Client.__eq__` between two `Client`s: natural-key comparison. -/
def clientEqB (a b : Client) : Bool := decide (natural_key a = natural_key b)

/-- The `required`-fields check of `Client.__init__`: names of the
mandatory keys that are absent or `None`, in the source's order. -/
def missingOf (rec : RawRecord) : List String :=
  (if rec.last_name.isNone then ["last_name"] else []) ++
  (if rec.first_name.isNone then ["first_name"] else []) ++
  (if rec.middle_name.isNone then ["middle_name"] else []) ++
  (if rec.passport_series.isNone then ["passport_series"] else []) ++
  (if rec.passport_number.isNone then ["passport_number"] else []) ++
  (if rec.birth_date.isNone then ["birth_date"] else []) ++
  (if rec.phone.isNone then ["phone"] else []) ++
  (if rec.email.isNone then ["email"] else []) ++
  (if rec.address.isNone then ["address"] else [])

/-- The validated-fields part of `Client(rec)` for a dict payload:
required-fields check, then the property setters in declaration order.
The `getD ""` defaults are unreachable: the missing-fields guard has
already ruled the `none` case out. -/
def parseClientCore (today : Date) (rec : RawRecord) : Except VErr Client := do
  if missingOf rec ≠ [] then throw (.missingFields (missingOf rec))
  else
    let ln ← letters_only "last_name" (rec.last_name.getD "")
    let fn ← letters_only "first_name" (rec.first_name.getD "")
    let mn ← letters_only "middle_name" (rec.middle_name.getD "")
    let ps ← passport_series_v (rec.passport_series.getD "")
    let pn ← passport_number_v (rec.passport_number.getD "")
    let bd ← birth_date_dd_mm_yyyy today (rec.birth_date.getD "")
    let ph ← phone_ru_strict (rec.phone.getD "")
    let em ← email_strict (rec.email.getD "")
    let addr ← address_required (rec.address.getD "")
    pure { id := none, last_name := ln, first_name := fn,
           middle_name := mn, passport_series := ps, passport_number := pn,
           birth_date := bd, phone := ph, email := em, address := addr }

/-- `Client(rec)`: the validated fields plus `id = payload.get("id")`,
stored verbatim — the `id` setter validates nothing. -/
def parseClient (today : Date) (rec : RawRecord) : Except VErr Client :=
  (parseClientCore today rec).map (fun c => { c with id := rec.id })

/-- `BaseClientsRepo.client_to_dict`. -/
def client_to_dict (c : Client) : RawRecord :=
  { id := c.id, last_name := some c.last_name, first_name := some c.first_name,
    middle_name := some c.middle_name, passport_series := some c.passport_series,
    passport_number := some c.passport_number, birth_date := some c.birth_date,
    phone := some c.phone, email := some c.email, address := some c.address }

/-! ## `ClientShort` (`client_short.py`) -/

/-- The compressed projection kept by `ClientShort.__init__`. -/
structure ClientShort where
  id : Option Int
  last_name : String
  first_name : String
  middle_name : String
  birth_date : String
  passport : String
  contact_type : String
  contact : String
deriving DecidableEq

/-- The `required`-fields check of `ClientShort.__init__` (no `address`). -/
def shortMissingOf (rec : RawRecord) : List String :=
  (if rec.last_name.isNone then ["last_name"] else []) ++
  (if rec.first_name.isNone then ["first_name"] else []) ++
  (if rec.middle_name.isNone then ["middle_name"] else []) ++
  (if rec.passport_series.isNone then ["passport_series"] else []) ++
  (if rec.passport_number.isNone then ["passport_number"] else []) ++
  (if rec.birth_date.isNone then ["birth_date"] else []) ++
  (if rec.phone.isNone then ["phone"] else []) ++
  (if rec.email.isNone then ["email"] else [])

/-- The id normalisation at the end of `ClientShort.__init__`:
`None` stays, `int` stays, digits-only `str` converts, anything else is
rejected. -/
def shortNormId : Option IdVal → Except VErr (Option Int)
  | none => .ok none
  | some (.intV n) => .ok (some n)
  | some (.strV s) =>
    match pyDigits? s.toList with
    | some n => .ok (some (n : Int))
    | none => .error .shortBadId
  | some (.otherV _) => .error .shortBadId

/-- The validated-fields part of `ClientShort(rec, prefer_contact=...)`:
required check, then the field validators in the source's order. -/
def parseShortCore (today : Date) (prefer_contact : String)
    (rec : RawRecord) : Except VErr ClientShort := do
  if shortMissingOf rec ≠ [] then throw (.missingFields (shortMissingOf rec))
  else
    let ln ← letters_only "last_name" (rec.last_name.getD "")
    let fn ← letters_only "first_name" (rec.first_name.getD "")
    let mn ← letters_only "middle_name" (rec.middle_name.getD "")
    let ps ← passport_series_v (rec.passport_series.getD "")
    let pn ← passport_number_v (rec.passport_number.getD "")
    let bd ← birth_date_dd_mm_yyyy today (rec.birth_date.getD "")
    let ph ← phone_ru_strict (rec.phone.getD "")
    let em ← email_strict (rec.email.getD "")
    let ctype := if prefer_contact = "email" then "email" else "phone"
    pure { id := none, last_name := ln, first_name := fn, middle_name := mn,
           birth_date := bd, passport := ps ++ " " ++ pn,
           contact_type := ctype,
           contact := if ctype = "email" then em else ph }

/-- `ClientShort(rec, prefer_contact=...)`: the validated fields, then
the id normalisation (which, unlike `Client`'s, can reject). -/
def parseShort (today : Date) (prefer_contact : String) (rec : RawRecord) :
    Except VErr ClientShort := do
  let s ← parseShortCore today prefer_contact rec
  let i ← shortNormId rec.id
  pure { s with id := i }

/-- Effectful map with the evaluation order of a Python list
comprehension: first element's effect first, failure aborts the whole
construction. -/
def mapE (f : α → Except ε β) : List α → Except ε (List β)
  | [] => .ok []
  | a :: as => do
    let b ← f a
    let bs ← mapE f as
    pure (b :: bs)

/-! ## Repository state and operations (`base_clients_repo.py`) -/

/-- The two storage sources a file-backed repository touches: the primary
array (`self.path`) and the derived `_clean` array; `none` models
`FileNotFoundError` on read. -/
structure RepoState where
  raw : Option (List RawRecord)
  clean : Option (List RawRecord)
deriving DecidableEq

/-- Entries of the non-raising `errors` lists returned by
`get_by_id`/`delete_by_id` (`error_type` of the dict). -/
inductive RepErr where
  | notFound
  | duplicateId
  | invalidDeleted (e : VErr)
deriving DecidableEq

/-- The valid-entity half of `read_all(tolerant=True)`: each raw record
that validates, in order. -/
def read_all_ok (today : Date) (st : RepoState) : List Client :=
  (st.raw.getD []).filterMap (fun r => (parseClient today r).toOption)

/-- `int(rec.get("id"))` with failures mapped to `None`, as in the
normalisation loops of `get_by_id`/`replace_by_id`/`delete_by_id`. -/
def normRecId (r : RawRecord) : Option Int := r.id.bind pyToInt

/-- Whether a raw record's normalised id equals the target. -/
def matchesId (t : Int) (r : RawRecord) : Bool := normRecId r == some t

/-- Python `c.id == target_id` on a constructed entity (`None == int` and
`str == int` are `False`). -/
def pyIdOptEq (o : Option IdVal) (t : Int) : Bool :=
  match o with
  | some v => pyIdEq v t
  | none => false

/-- The `for i, rec in enumerate(records)` index scan shared by
`replace_by_id` and `delete_by_id`, with the matched record attached. -/
def matchIdxsAux (t : Int) : List RawRecord → Nat → List (Nat × RawRecord)
  | [], _ => []
  | r :: rs, i =>
    if matchesId t r then (i, r) :: matchIdxsAux t rs (i + 1)
    else matchIdxsAux t rs (i + 1)

/-- Indices (with records) of the raw records whose normalised id equals
the target. -/
def matchIdxs (t : Int) (rs : List RawRecord) : List (Nat × RawRecord) :=
  matchIdxsAux t rs 0

/-- `BaseClientsRepo.get_count`. -/
def get_count (today : Date) (st : RepoState) : Nat :=
  match st.clean with
  | some recs => recs.length
  | none => (read_all_ok today st).length

/-- `BaseClientsRepo.get_by_id`.  The `Except` layer models
`Client(matches_dicts[0])` raising on an invalid `_clean` record; the
returned pair is `(client-or-None, errors)`. -/
def get_by_id (today : Date) (st : RepoState) (target : Int)
    (allow_raw_fallback : Bool) : Except VErr (Option Client × List RepErr) :=
  match st.clean with
  | some recs =>
    match recs.filter (matchesId target) with
    | m :: rest => do
      let c ← parseClient today m
      pure (some c, if rest.length > 0 then [.duplicateId] else [])
    | [] =>
      if allow_raw_fallback then
        match (read_all_ok today st).filter (fun c => pyIdOptEq c.id target) with
        | m :: rest =>
          pure (some m, if rest.length > 0 then [.duplicateId] else [])
        | [] => pure (none, [.notFound])
      else pure (none, [.notFound])
  | none =>
    match (read_all_ok today st).filter (fun c => pyIdOptEq c.id target) with
    | [] => pure (none, [.notFound])
    | m :: rest => pure (some m, if rest.length > 0 then [.duplicateId] else [])

/-- Errors out of `get_k_n_short_list`: the `ValueError` on non-positive
`k`/`n`, or a `ClientShort` construction raising on a bad record. -/
inductive PageErr where
  | argErr
  | validation (e : VErr)
deriving DecidableEq

/-- `BaseClientsRepo.get_k_n_short_list`. -/
def get_k_n_short_list (today : Date) (st : RepoState) (k n : Int)
    (prefer_contact : String) : Except PageErr (List ClientShort) :=
  if ¬ (k > 0 ∧ n > 0) then .error .argErr
  else
    let records :=
      match st.clean with
      | some recs => recs
      | none => (read_all_ok today st).map client_to_dict
    match mapE (fun r => parseShort today prefer_contact r) records with
    | .error e => .error (.validation e)
    | .ok shorts => .ok ((shorts.drop ((k - 1) * n).toNat).take n.toNat)

/-- The `data` argument of `add_client`/`replace_by_id`: an already
constructed `Client`, or a dict that `Client(...)` parses (the JSON/string
forms reduce to the dict case). -/
inductive PayloadInput where
  | client (c : Client)
  | record (r : RawRecord)

/-- Turning the payload into an entity (`Client(data)`). -/
def normalizePayload (today : Date) : PayloadInput → Except VErr Client
  | .client c => .ok c
  | .record r => parseClient today r

/-- The `ValueError`s `add_client` raises. -/
inductive AddErr where
  | validation (e : VErr)
  | duplicateClient (ids : List (Option IdVal))
deriving DecidableEq

/-- `BaseClientsRepo.add_client`, returning the result together with the
post-call state (the state is returned unchanged on every raising
path, since the single write is the last step). -/
def add_client (today : Date) (st : RepoState) (data : PayloadInput) :
    Except AddErr Client × RepoState :=
  let records := st.raw.getD []
  match normalizePayload today data with
  | .error e => (.error (.validation e), st)
  | .ok new0 =>
    let dup_ids :=
      ((read_all_ok today st).filter (fun c => clientEqB c new0)).map (·.id)
    if dup_ids ≠ [] then (.error (.duplicateClient dup_ids), st)
    else
      let existing_ids := records.filterMap normRecId
      let new_id : Int :=
        (match existing_ids.max? with | some m => m | none => 0) + 1
      let newC := { new0 with id := some (.intV new_id) }
      (.ok newC, { st with raw := some (records ++ [client_to_dict newC]) })

/-- The `ValueError`s/`TypeError`s `replace_by_id` raises. -/
inductive ReplaceErr where
  | validation (e : VErr)
  | notFound
  | mismatchedId
  | duplicateClient (ids : List (Option IdVal))
  | fileNotFound
  | duplicateId
deriving DecidableEq

/-- `BaseClientsRepo.replace_by_id`, with the post-call state. -/
def replace_by_id (today : Date) (st : RepoState) (target : Int)
    (data : PayloadInput) : Except ReplaceErr Client × RepoState :=
  match get_by_id today st target true with
  | .error e => (.error (.validation e), st)
  | .ok (none, _) => (.error .notFound, st)
  | .ok (some _, _) =>
    match normalizePayload today data with
    | .error e => (.error (.validation e), st)
    | .ok new0 =>
      let mismatch : Bool :=
        match new0.id with
        | some v => ! pyIdEq v target
        | none => false
      if mismatch then (.error .mismatchedId, st)
      else
        let dup_ids :=
          ((read_all_ok today st).filter
            (fun c => (! pyIdOptEq c.id target) && clientEqB c new0)).map (·.id)
        if dup_ids ≠ [] then (.error (.duplicateClient dup_ids), st)
        else
          match st.raw with
          | none => (.error .fileNotFound, st)
          | some records =>
            match matchIdxs target records with
            | [] => (.error .notFound, st)
            | [(i, _)] =>
              let newC := { new0 with id := some (.intV target) }
              (.ok newC,
               { st with raw := some (records.set i (client_to_dict newC)) })
            | _ :: _ :: _ => (.error .duplicateId, st)

/-- `BaseClientsRepo.delete_by_id`, with the post-call state. -/
def delete_by_id (today : Date) (st : RepoState) (target : Int) :
    (Option Client × List RepErr) × RepoState :=
  match st.raw with
  | none => ((none, [.notFound]), st)
  | some records =>
    match matchIdxs target records with
    | [] => ((none, [.notFound]), st)
    | [(i, rec)] =>
      let st' := { st with raw := some (records.eraseIdx i) }
      match parseClient today rec with
      | .ok c => ((some c, []), st')
      | .error e => ((none, [.invalidDeleted e]), st')
    | _ :: _ :: _ => ((none, [.duplicateId]), st)

/-! ## Shared decorator pieces -/

/-- Effectful filter with the evaluation order of the decorator's
`for c in clients: ... continue ... append` loop. -/
def filterE (p : α → Except ε Bool) : List α → Except ε (List α)
  | [] => .ok []
  | a :: as => do
    let b ← p a
    let rest ← filterE p as
    pure (if b then a :: rest else rest)

/-- Stable insertion: `a` goes in front of the first element it is
`le`-below-or-tied-with, so earlier-listed elements win ties. -/
def stableInsert (le : α → α → Bool) (a : α) : List α → List α
  | [] => [a]
  | b :: bs => if le a b then a :: b :: bs else b :: stableInsert le a bs

/-- Stable sort (insertion sort): the unique stable result of Python's
`sorted` with a total `le`. -/
def stableSortBy (le : α → α → Bool) : List α → List α
  | [] => []
  | a :: as => stableInsert le a (stableSortBy le as)

/-- Python `<=` on strings (code-point lexicographic). -/
def strLeL : List Char → List Char → Bool
  | [], _ => true
  | _ :: _, [] => false
  | a :: as, b :: bs =>
    if a.toNat < b.toNat then true
    else if a.toNat = b.toNat then strLeL as bs
    else false

/-- A sort key produced by the decorators' `kfunc`/`ORDER BY` column. -/
inductive SKey where
  | intK (n : Int)
  | strK (s : String)
  | dateK (isNoneDate : Bool) (code : Nat)
deriving DecidableEq

/-- `<=` on sort keys: `Int`, string, or the `(d is None, d)` tuple
(`False < True`).  Heterogeneous keys never meet (one sort column per
call); two `None`-date keys would raise `TypeError` in Python and are
unreachable for validated clients, the model compares their codes. -/
def keyLe : SKey → SKey → Bool
  | .intK x, .intK y => x ≤ y
  | .strK x, .strK y => strLeL x.toList y.toList
  | .dateK na ca, .dateK nb cb => (!na && nb) || (na = nb && ca ≤ cb)
  | _, _ => true

/-- `_ALLOWED_SORT.get((by or "").lower(), "id")`, identical in both
decorators. -/
def allowedSortKey (b : String) : String :=
  let s : String := ⟨lowerL b.toList⟩
  if s = "id" then "id"
  else if s = "last_name" then "last_name"
  else if s = "birth_date" then "birth_date"
  else "id"

/-- The decorators' `_to_date`: falsy input is `None`, otherwise
`strptime("%d-%m-%Y")`, whose failure raises (the model restricts
`strptime` to the zero-padded form the system produces). -/
def toDateE : Option String → Except Unit (Option Date)
  | none => .ok none
  | some s =>
    if s = "" then .ok none
    else
      match pyStrptimeDMY? s with
      | some d => .ok (some d)
      | none => .error ()

/-- Failures of a decorated paging/count call: bad `k`/`n`, a validation
raise while loading records or building `ClientShort`s, or `strptime`
raising on a date filter/field. -/
inductive DecoErr where
  | argErr
  | validation (e : VErr)
  | dateParse
deriving DecidableEq

/-- Sort specification (`SortSpec` dataclass, same in both decorator
modules; the source's field `by` is `by_` here — `by` is a Lean
keyword). -/
structure SortSpec where
  by_ : String := "id"
  asc : Bool := true
deriving DecidableEq

/-! ## File-backend decorator (`file_filter_sort_decorator.py`) -/

/-- `FileClientFilter` dataclass. -/
structure FileClientFilter where
  last_name_substr : Option String := none
  first_name_substr : Option String := none
  middle_name_substr : Option String := none
  phone_substr : Option String := none
  email_substr : Option String := none
  passport_series : Option String := none
  passport_number : Option String := none
  birth_date_from : Option String := none
  birth_date_to : Option String := none
deriving DecidableEq

/-- `_case_contains`: falsy needle always matches; otherwise casefolded
substring containment. -/
def caseContains (hay : String) (needle : Option String) : Bool :=
  match needle with
  | none => true
  | some n =>
    if n = "" then true
    else containsL (lowerL hay.toList) (lowerL n.toList)

/-- Python truthiness of an optional-string filter slot. -/
def isTruthy : Option String → Bool
  | none => false
  | some s => s ≠ ""

/-- The per-client body of `_apply_filter`'s loop (dates already parsed,
as `_apply_filter` does before the loop; the per-client
`_to_date(c.birth_date)` raise is the `Except` layer). -/
def fileKeep (flt : FileClientFilter) (dFrom dTo : Option Date) (c : Client) :
    Except Unit Bool :=
  if ¬ caseContains c.last_name flt.last_name_substr then .ok false
  else if ¬ caseContains c.first_name flt.first_name_substr then .ok false
  else if ¬ caseContains c.middle_name flt.middle_name_substr then .ok false
  else if ¬ caseContains c.phone flt.phone_substr then .ok false
  else if ¬ caseContains c.email flt.email_substr then .ok false
  else if isTruthy flt.passport_series &&
      (pyStrip c.passport_series != flt.passport_series.getD "") then .ok false
  else if isTruthy flt.passport_number &&
      (pyStrip c.passport_number != flt.passport_number.getD "") then .ok false
  else do
    let cDate ← toDateE (some c.birth_date)
    match cDate with
    | none => pure (dFrom.isNone && dTo.isNone)
    | some cd =>
      if (match dFrom with | some f => dateLtB cd f | none => false) then
        pure false
      else if (match dTo with | some t => dateLtB t cd | none => false) then
        pure false
      else pure true

/-- `_apply_filter`. -/
def applyFilter (flt? : Option FileClientFilter) (clients : List Client) :
    Except Unit (List Client) :=
  match flt? with
  | none => .ok clients
  | some flt => do
    let dFrom ← toDateE flt.birth_date_from
    let dTo ← toDateE flt.birth_date_to
    filterE (fileKeep flt dFrom dTo) clients

/-- `c.id or 0`: falsy ids (None, 0, "") become `0`. -/
def pyOr0 : Option IdVal → IdVal
  | none => .intV 0
  | some (.intV n) => if n = 0 then .intV 0 else .intV n
  | some (.strV s) => if s = "" then .intV 0 else .strV s
  | some (.otherV t) => .otherV t

/-- `kfunc` of `_apply_sort`; `int(c.id or 0)` raising on a non-numeric
id is the `Except` layer, and the final `return 0` branch is the
fallthrough for a non-whitelisted key (unreachable: the key was already
whitelisted). -/
def kfunc (key : String) (c : Client) : Except Unit SKey :=
  if key = "id" then
    match pyToInt (pyOr0 c.id) with
    | some n => .ok (.intK n)
    | none => .error ()
  else if key = "last_name" then .ok (.strK ⟨lowerL c.last_name.toList⟩)
  else if key = "birth_date" then
    if c.birth_date = "" then .ok (.dateK true 0)
    else
      match pyStrptimeDMY? c.birth_date with
      | some d => .ok (.dateK false d.code)
      | none => .error ()
  else .ok (.intK 0)

/-- `_apply_sort`: whitelisted key, `sorted(..., key=kfunc,
reverse=not asc)` as a stable sort. -/
def applySort (sort? : Option SortSpec) (clients : List Client) :
    Except Unit (List Client) := do
  let key := match sort? with | none => "id" | some s => allowedSortKey s.by_
  let asc := match sort? with | none => true | some s => s.asc
  let keyed ← mapE (fun c => (kfunc key c).map (fun k => (k, c))) clients
  let sorted :=
    if asc then stableSortBy (fun a b => keyLe a.1 b.1) keyed
    else stableSortBy (fun a b => keyLe b.1 a.1) keyed
  pure (sorted.map (·.2))

/-- `_load_clients`: `_clean` re-validated strictly if present, else the
tolerant raw pass. -/
def fileLoadClients (today : Date) (st : RepoState) :
    Except VErr (List Client) :=
  match st.clean with
  | some recs => mapE (parseClient today) recs
  | none => .ok (read_all_ok today st)

/-- `ClientsRepFileFilterSortDecorator.get_k_n_short_list`. -/
def file_get_k_n_short_list (today : Date) (st : RepoState) (k n : Int)
    (flt? : Option FileClientFilter) (sort? : Option SortSpec)
    (prefer_contact : String) : Except DecoErr (List ClientShort) :=
  if ¬ (k > 0 ∧ n > 0) then .error .argErr
  else do
    let clients ← (fileLoadClients today st).mapError .validation
    let filtered ← (applyFilter flt? clients).mapError (fun _ => .dateParse)
    let sorted ← (applySort sort? filtered).mapError (fun _ => .dateParse)
    let page := (sorted.drop ((k - 1) * n).toNat).take n.toNat
    (mapE (fun c => parseShort today prefer_contact (client_to_dict c))
      page).mapError .validation

/-- `ClientsRepFileFilterSortDecorator.get_count`. -/
def file_get_count (today : Date) (st : RepoState)
    (flt? : Option FileClientFilter) : Except DecoErr Nat := do
  let clients ← (fileLoadClients today st).mapError .validation
  let filtered ← (applyFilter flt? clients).mapError (fun _ => .dateParse)
  pure filtered.length

/-! ## SQL-backend decorator (`db_filter_sort_decorator.py`)

The decorator itself (whitelisting, `%value%` pattern building, `TRIM`
equality, `BETWEEN`, `LIMIT/OFFSET`, row→payload projection) is source
code; the database engine executing the query is not in the repository,
so its semantics is modelled from the spec ("substring →
case-insensitive LIKE, exact → trimmed equality, range →
BETWEEN/inequality" with "identical filter/sort inputs produce identical
result sets").  A table row is kept as a `Client` whose `birth_date`
string stands for the row's `DATE` value through the canonical
`DD-MM-YYYY` form (a bijection on real dates). -/

/-- SQL `LIKE`/`ILIKE` pattern matching against a whole string, with
bounded recursion depth (`fuel` is always given as more than the summed
lengths): `%` matches any sequence, `_` any single character, other
characters match case-insensitively (ILIKE). -/
def likeAux : Nat → List Char → List Char → Bool
  | 0, _, _ => false
  | fuel + 1, s, p =>
    match p with
    | [] => s.isEmpty
    | pc :: ps =>
      if pc = '%' then
        likeAux fuel s ps ||
          (match s with
           | [] => false
           | _ :: s' => likeAux fuel s' (pc :: ps))
      else
        match s with
        | [] => false
        | a :: s' =>
          if pc = '_' then likeAux fuel s' ps
          else (lc pc == lc a) && likeAux fuel s' ps

/-- Modelled from the spec: `text ILIKE pattern` of the SQL engine (the
engine is outside the repository; the spec fixes it as case-insensitive
LIKE). -/
def pgILike (text pattern : String) : Bool :=
  likeAux (text.toList.length + pattern.toList.length + 1)
    text.toList pattern.toList

/-- SQL `TRIM(x)`: default trim, space characters at both ends. -/
def sqlTrim (s : String) : String :=
  ⟨((s.toList.dropWhile (· = ' ')).reverse.dropWhile (· = ' ')).reverse⟩

/-- The row's `birth_date` `DATE` value (see the section comment: the
canonical text stands for the date; `⟨1, 1, 1⟩` is unreachable for a
well-formed row). -/
def rowDate (row : Client) : Date :=
  (pyStrptimeDMY? row.birth_date).getD ⟨1, 1, 1⟩

/-- `ClientFilter` dataclass of the DB decorator (same slots as
`FileClientFilter`). -/
structure ClientFilter where
  last_name_substr : Option String := none
  first_name_substr : Option String := none
  middle_name_substr : Option String := none
  phone_substr : Option String := none
  email_substr : Option String := none
  passport_series : Option String := none
  passport_number : Option String := none
  birth_date_from : Option String := none
  birth_date_to : Option String := none
deriving DecidableEq

/-- One `add_ilike` condition: skipped for a falsy value, otherwise
`col ILIKE '%value%'`. -/
def ilikeCond (colVal : String) (v? : Option String) : Bool :=
  match v? with
  | none => true
  | some v => if v = "" then true else pgILike colVal ("%" ++ v ++ "%")

/-- The date parsing `_build_where` performs up front (`strptime` raising
on a malformed bound). -/
def buildWhereDates (flt? : Option ClientFilter) :
    Except Unit (Option Date × Option Date) :=
  match flt? with
  | none => .ok (none, none)
  | some flt => do
    let dFrom ← toDateE flt.birth_date_from
    let dTo ← toDateE flt.birth_date_to
    pure (dFrom, dTo)

/-- Modelled from the spec: evaluation of the `WHERE` fragment
`_build_where` emits, one conjunct per generated condition (ILIKE
columns, trimmed passport equality, `BETWEEN`/`>=`/`<=` on the date). -/
def sqlRowPred (flt : ClientFilter) (dFrom dTo : Option Date)
    (row : Client) : Bool :=
  ilikeCond row.last_name flt.last_name_substr &&
  ilikeCond row.first_name flt.first_name_substr &&
  ilikeCond row.middle_name flt.middle_name_substr &&
  ilikeCond row.phone flt.phone_substr &&
  ilikeCond row.email flt.email_substr &&
  (match flt.passport_series with
   | some v => if v ≠ "" then sqlTrim row.passport_series == v else true
   | none => true) &&
  (match flt.passport_number with
   | some v => if v ≠ "" then sqlTrim row.passport_number == v else true
   | none => true) &&
  (match dFrom, dTo with
   | some f, some t => dateLeB f (rowDate row) && dateLeB (rowDate row) t
   | some f, none => dateLeB f (rowDate row)
   | none, some t => dateLeB (rowDate row) t
   | none, none => true)

/-- Modelled from the spec: the key the engine orders by for one
whitelisted column (`_build_order_by` emits `ORDER BY col ASC|DESC`); the
spec's cross-backend equivalence fixes text ordering as
case-insensitive and the order as deterministic (stable).  `id` is
non-null `BIGSERIAL` in the schema; a model row with a non-`int` id
orders as 0. -/
def sqlOrderKey (col : String) (row : Client) : SKey :=
  if col = "last_name" then .strK ⟨lowerL row.last_name.toList⟩
  else if col = "birth_date" then .dateK false (rowDate row).code
  else .intK (match row.id with | some (.intV n) => n | _ => 0)

/-- The row→payload projection inside
`ClientsRepDBFilterSortDecorator.get_k_n_short_list` (trimmed passports,
`DATE` formatted back to `DD-MM-YYYY`, no `address` key). -/
def sqlRowPayload (row : Client) : RawRecord :=
  { id := row.id, last_name := some row.last_name,
    first_name := some row.first_name, middle_name := some row.middle_name,
    passport_series := some (sqlTrim row.passport_series),
    passport_number := some (sqlTrim row.passport_number),
    birth_date := some (dateToDDMMYYYY (rowDate row)),
    phone := some row.phone, email := some row.email, address := none }

/-- Modelled from the spec: the ordering the engine applies for the
`ORDER BY` fragment `_build_order_by` emits (whitelisted column,
`ASC`/`DESC`, deterministic stable order). -/
def dbSortModel (sort? : Option SortSpec) (rows : List Client) : List Client :=
  let col := match sort? with | none => "id" | some s => allowedSortKey s.by_
  let asc := match sort? with | none => true | some s => s.asc
  if asc then
    stableSortBy (fun a b => keyLe (sqlOrderKey col a) (sqlOrderKey col b)) rows
  else
    stableSortBy (fun a b => keyLe (sqlOrderKey col b) (sqlOrderKey col a)) rows

/-- `ClientsRepDBFilterSortDecorator.get_k_n_short_list` run against a
table (filter, whitelisted order, `LIMIT n OFFSET (k-1)*n`, projection to
`ClientShort`). -/
def db_get_k_n_short_list (today : Date) (table : List Client) (k n : Int)
    (flt? : Option ClientFilter) (sort? : Option SortSpec)
    (prefer_contact : String) : Except DecoErr (List ClientShort) :=
  if ¬ (k > 0 ∧ n > 0) then .error .argErr
  else do
    let dates ← (buildWhereDates flt?).mapError (fun _ => .dateParse)
    let rows :=
      match flt? with
      | none => table
      | some flt => table.filter (sqlRowPred flt dates.1 dates.2)
    let sorted := dbSortModel sort? rows
    let page := (sorted.drop ((k - 1) * n).toNat).take n.toNat
    (mapE (fun row => parseShort today prefer_contact (sqlRowPayload row))
      page).mapError .validation

/-- `ClientsRepDBFilterSortDecorator.get_count` (`SELECT COUNT(*)` under
the same `WHERE`). -/
def db_get_count (table : List Client) (flt? : Option ClientFilter) :
    Except DecoErr Nat := do
  let dates ← (buildWhereDates flt?).mapError (fun _ => .dateParse)
  pure
    (match flt? with
     | none => table.length
     | some flt => (table.filter (sqlRowPred flt dates.1 dates.2)).length)

/-! ## General lemmas -/

theorem mapE_length {f : α → Except ε β} :
    ∀ {l : List α} {l' : List β}, mapE f l = .ok l' → l'.length = l.length := by
  intro l
  induction l with
  | nil => intro l' h; simp [mapE] at h; subst h; rfl
  | cons a as ih =>
    intro l' h
    simp only [mapE, bind, Except.bind] at h
    cases hfa : f a with
    | error e => rw [hfa] at h; cases h
    | ok b =>
      rw [hfa] at h
      cases hrest : mapE f as with
      | error e => rw [hrest] at h; cases h
      | ok bs =>
        rw [hrest] at h
        simp only [pure, Except.pure, Except.ok.injEq] at h
        subst h
        simp [ih hrest]

theorem mapE_congr {f g : α → Except ε β} :
    ∀ {l : List α}, (∀ a ∈ l, f a = g a) → mapE f l = mapE g l := by
  intro l
  induction l with
  | nil => intro _; rfl
  | cons a as ih =>
    intro h
    simp only [mapE]
    rw [h a (by simp), ih (fun x hx => h x (by simp [hx]))]

theorem mapE_ok_of_pointwise {f : α → Except ε β} {g : α → β} :
    ∀ {l : List α}, (∀ a ∈ l, f a = .ok (g a)) → mapE f l = .ok (l.map g) := by
  intro l
  induction l with
  | nil => intro _; rfl
  | cons a as ih =>
    intro h
    simp only [mapE, bind, Except.bind, h a (by simp)]
    rw [ih (fun x hx => h x (by simp [hx]))]
    rfl

theorem filterE_ok_of_pointwise {p : α → Except ε Bool} {q : α → Bool} :
    ∀ {l : List α}, (∀ a ∈ l, p a = .ok (q a)) →
      filterE p l = .ok (l.filter q) := by
  intro l
  induction l with
  | nil => intro _; rfl
  | cons a as ih =>
    intro h
    simp only [filterE, bind, Except.bind, h a (by simp)]
    rw [ih (fun x hx => h x (by simp [hx]))]
    simp only [pure, Except.pure, List.filter_cons]

/-! ## Inversion lemmas for entity construction -/

theorem parseClientCore_inv {today : Date} {rec : RawRecord} {c : Client}
    (h : parseClientCore today rec = .ok c) :
    missingOf rec = [] ∧
    letters_only "last_name" (rec.last_name.getD "") = .ok c.last_name ∧
    letters_only "first_name" (rec.first_name.getD "") = .ok c.first_name ∧
    letters_only "middle_name" (rec.middle_name.getD "") = .ok c.middle_name ∧
    passport_series_v (rec.passport_series.getD "") = .ok c.passport_series ∧
    passport_number_v (rec.passport_number.getD "") = .ok c.passport_number ∧
    birth_date_dd_mm_yyyy today (rec.birth_date.getD "") = .ok c.birth_date ∧
    phone_ru_strict (rec.phone.getD "") = .ok c.phone ∧
    email_strict (rec.email.getD "") = .ok c.email ∧
    address_required (rec.address.getD "") = .ok c.address ∧
    c.id = none := by
  unfold parseClientCore at h
  simp only [bind, Except.bind] at h
  split at h
  · cases h
  next hmiss =>
    cases hln : letters_only "last_name" (rec.last_name.getD "") with
    | error e => rw [hln] at h; cases h
    | ok ln =>
    rw [hln] at h
    cases hfn : letters_only "first_name" (rec.first_name.getD "") with
    | error e => rw [hfn] at h; cases h
    | ok fn =>
    rw [hfn] at h
    cases hmn : letters_only "middle_name" (rec.middle_name.getD "") with
    | error e => rw [hmn] at h; cases h
    | ok mn =>
    rw [hmn] at h
    cases hps : passport_series_v (rec.passport_series.getD "") with
    | error e => rw [hps] at h; cases h
    | ok ps =>
    rw [hps] at h
    cases hpn : passport_number_v (rec.passport_number.getD "") with
    | error e => rw [hpn] at h; cases h
    | ok pn =>
    rw [hpn] at h
    cases hbd : birth_date_dd_mm_yyyy today (rec.birth_date.getD "") with
    | error e => rw [hbd] at h; cases h
    | ok bd =>
    rw [hbd] at h
    cases hph : phone_ru_strict (rec.phone.getD "") with
    | error e => rw [hph] at h; cases h
    | ok ph =>
    rw [hph] at h
    cases hem : email_strict (rec.email.getD "") with
    | error e => rw [hem] at h; cases h
    | ok em =>
    rw [hem] at h
    cases had : address_required (rec.address.getD "") with
    | error e => rw [had] at h; cases h
    | ok ad =>
    rw [had] at h
    simp only [pure, Except.pure, Except.ok.injEq] at h
    subst h
    exact ⟨not_not.mp hmiss, rfl, rfl, rfl, rfl, rfl, rfl, rfl, rfl, rfl, rfl⟩

theorem parseShortCore_inv {today : Date} {p : String} {rec : RawRecord}
    {s : ClientShort} (h : parseShortCore today p rec = .ok s) :
    shortMissingOf rec = [] ∧
    letters_only "last_name" (rec.last_name.getD "") = .ok s.last_name ∧
    letters_only "first_name" (rec.first_name.getD "") = .ok s.first_name ∧
    letters_only "middle_name" (rec.middle_name.getD "") = .ok s.middle_name ∧
    birth_date_dd_mm_yyyy today (rec.birth_date.getD "") = .ok s.birth_date ∧
    s.id = none := by
  unfold parseShortCore at h
  simp only [bind, Except.bind] at h
  split at h
  · cases h
  next hmiss =>
    cases hln : letters_only "last_name" (rec.last_name.getD "") with
    | error e => rw [hln] at h; cases h
    | ok ln =>
    rw [hln] at h
    cases hfn : letters_only "first_name" (rec.first_name.getD "") with
    | error e => rw [hfn] at h; cases h
    | ok fn =>
    rw [hfn] at h
    cases hmn : letters_only "middle_name" (rec.middle_name.getD "") with
    | error e => rw [hmn] at h; cases h
    | ok mn =>
    rw [hmn] at h
    cases hps : passport_series_v (rec.passport_series.getD "") with
    | error e => rw [hps] at h; cases h
    | ok ps =>
    rw [hps] at h
    cases hpn : passport_number_v (rec.passport_number.getD "") with
    | error e => rw [hpn] at h; cases h
    | ok pn =>
    rw [hpn] at h
    cases hbd : birth_date_dd_mm_yyyy today (rec.birth_date.getD "") with
    | error e => rw [hbd] at h; cases h
    | ok bd =>
    rw [hbd] at h
    cases hph : phone_ru_strict (rec.phone.getD "") with
    | error e => rw [hph] at h; cases h
    | ok ph =>
    rw [hph] at h
    cases hem : email_strict (rec.email.getD "") with
    | error e => rw [hem] at h; cases h
    | ok em =>
    rw [hem] at h
    simp only [pure, Except.pure, Except.ok.injEq] at h
    subst h
    exact ⟨not_not.mp hmiss, rfl, rfl, rfl, rfl, rfl⟩

/-- Neither parse core looks at the `id` slot. -/
theorem parseClientCore_set_id (today : Date) (rec : RawRecord)
    (idv : Option IdVal) :
    parseClientCore today { rec with id := idv } = parseClientCore today rec :=
  rfl

theorem parseShortCore_set_id (today : Date) (p : String) (rec : RawRecord)
    (idv : Option IdVal) :
    parseShortCore today p { rec with id := idv } =
      parseShortCore today p rec :=
  rfl

/-! ## Validator extraction lemmas -/

theorem letters_only_ok {f v w : String} (h : letters_only f v = .ok w) :
    w = pyStrip v ∧ w ≠ "" ∧ w.toList.all Char.isAlpha = true := by
  unfold letters_only require_non_empty at h
  by_cases hs : pyStrip v = ""
  · rw [if_pos hs] at h
    simp only [bind, Except.bind] at h
    cases h
  · rw [if_neg hs] at h
    simp only [bind, Except.bind] at h
    by_cases ha : (pyStrip v).toList.all Char.isAlpha = true
    · rw [if_pos ha] at h
      simp only [pure, Except.pure, Except.ok.injEq] at h
      subst h
      exact ⟨rfl, hs, ha⟩
    · rw [if_neg ha] at h
      cases h

theorem passport_series_ok {v w : String} (h : passport_series_v v = .ok w) :
    w.toList.length = 4 ∧ w.toList.all Char.isDigit = true := by
  unfold passport_series_v require_non_empty at h
  by_cases hs : pyStrip v = ""
  · rw [if_pos hs] at h
    simp only [bind, Except.bind] at h
    cases h
  · rw [if_neg hs] at h
    simp only [bind, Except.bind] at h
    by_cases hd : (removeSpaces (pyStrip v)).toList.length = 4 ∧
        (removeSpaces (pyStrip v)).toList.all Char.isDigit = true
    · rw [if_pos hd] at h
      simp only [pure, Except.pure, Except.ok.injEq] at h
      subst h
      exact hd
    · rw [if_neg hd] at h
      cases h

theorem passport_number_ok {v w : String} (h : passport_number_v v = .ok w) :
    w.toList.length = 6 ∧ w.toList.all Char.isDigit = true := by
  unfold passport_number_v require_non_empty at h
  by_cases hs : pyStrip v = ""
  · rw [if_pos hs] at h
    simp only [bind, Except.bind] at h
    cases h
  · rw [if_neg hs] at h
    simp only [bind, Except.bind] at h
    by_cases hd : (removeSpaces (pyStrip v)).toList.length = 6 ∧
        (removeSpaces (pyStrip v)).toList.all Char.isDigit = true
    · rw [if_pos hd] at h
      simp only [pure, Except.pure, Except.ok.injEq] at h
      subst h
      exact hd
    · rw [if_neg hd] at h
      cases h

theorem birth_date_ok_shape {today : Date} {v w : String}
    (h : birth_date_dd_mm_yyyy today v = .ok w) :
    ∃ dd mm yyyy, parseDMY (pyStrip v) = some (dd, mm, yyyy) ∧
      dateExistsB yyyy mm dd = true ∧
      dateLtB today ⟨yyyy, mm, dd⟩ = false ∧ w = canonDMY dd mm yyyy := by
  unfold birth_date_dd_mm_yyyy require_non_empty at h
  by_cases hs : pyStrip v = ""
  · rw [if_pos hs] at h
    simp only [bind, Except.bind] at h
    cases h
  · rw [if_neg hs] at h
    simp only [bind, Except.bind] at h
    cases hp : parseDMY (pyStrip v) with
    | none => rw [hp] at h; cases h
    | some t =>
      obtain ⟨dd, mm, yyyy⟩ := t
      rw [hp] at h
      dsimp only at h
      by_cases hex : dateExistsB yyyy mm dd = true
      · rw [if_pos hex] at h
        by_cases hfut : dateLtB today ⟨yyyy, mm, dd⟩ = true
        · rw [if_pos hfut] at h
          cases h
        · rw [if_neg hfut] at h
          simp only [pure, Except.pure, Except.ok.injEq] at h
          exact ⟨dd, mm, yyyy, rfl, hex, by simpa using hfut, h.symm⟩
      · rw [if_neg hex] at h
        cases h

/-! ## Digits, padding and the canonical date roundtrip -/

theorem digit_char_spec (m : Nat) (hm : m < 10) :
    (Char.ofNat (48 + m)).isDigit = true ∧
      digitVal (Char.ofNat (48 + m)) = m := by
  interval_cases m <;> exact ⟨by decide, by decide⟩

theorem daysInMonth_le (y m : Nat) : daysInMonth y m ≤ 31 := by
  unfold daysInMonth
  split
  · split <;> omega
  · split <;> omega

theorem dateExistsB_bounds {y m d : Nat} (h : dateExistsB y m d = true) :
    1 ≤ y ∧ y ≤ 9999 ∧ 1 ≤ m ∧ m ≤ 12 ∧ 1 ≤ d ∧ d ≤ 31 := by
  unfold dateExistsB at h
  simp only [Bool.and_eq_true, decide_eq_true_eq] at h
  have := daysInMonth_le y m
  omega

theorem parseDMY_canon {dd mm yyyy : Nat} (h1 : dd < 100) (h2 : mm < 100)
    (h3 : yyyy < 10000) : parseDMY (canonDMY dd mm yyyy) = some (dd, mm, yyyy) := by
  have hsp := digit_char_spec
  unfold parseDMY canonDMY pad2 pad4
  simp only [String.toList, List.cons_append, List.nil_append]
  rw [if_pos]
  · have e1 := (hsp (dd / 10 % 10) (Nat.mod_lt _ (by omega))).2
    have e2 := (hsp (dd % 10) (Nat.mod_lt _ (by omega))).2
    have e3 := (hsp (mm / 10 % 10) (Nat.mod_lt _ (by omega))).2
    have e4 := (hsp (mm % 10) (Nat.mod_lt _ (by omega))).2
    have e5 := (hsp (yyyy / 1000 % 10) (Nat.mod_lt _ (by omega))).2
    have e6 := (hsp (yyyy / 100 % 10) (Nat.mod_lt _ (by omega))).2
    have e7 := (hsp (yyyy / 10 % 10) (Nat.mod_lt _ (by omega))).2
    have e8 := (hsp (yyyy % 10) (Nat.mod_lt _ (by omega))).2
    unfold val2 val4
    rw [e1, e2, e3, e4, e5, e6, e7, e8]
    refine congrArg some ?_
    refine congrArg₂ Prod.mk ?_ (congrArg₂ Prod.mk ?_ ?_) <;> omega
  · refine ⟨by trivial, by trivial, ?_⟩
    simp only [List.all_cons, List.all_nil, Bool.and_eq_true]
    have i1 := (hsp (dd / 10 % 10) (Nat.mod_lt _ (by omega))).1
    have i2 := (hsp (dd % 10) (Nat.mod_lt _ (by omega))).1
    have i3 := (hsp (mm / 10 % 10) (Nat.mod_lt _ (by omega))).1
    have i4 := (hsp (mm % 10) (Nat.mod_lt _ (by omega))).1
    have i5 := (hsp (yyyy / 1000 % 10) (Nat.mod_lt _ (by omega))).1
    have i6 := (hsp (yyyy / 100 % 10) (Nat.mod_lt _ (by omega))).1
    have i7 := (hsp (yyyy / 10 % 10) (Nat.mod_lt _ (by omega))).1
    have i8 := (hsp (yyyy % 10) (Nat.mod_lt _ (by omega))).1
    exact ⟨i1, i2, i3, i4, i5, i6, i7, i8, trivial⟩

/-! ## Concrete sample data (used by witnesses and counterexamples) -/

/-- A fixed "today" for concrete evaluations. -/
def sampleToday : Date := ⟨2026, 10, 12⟩

/-- A validated client. -/
def sampleClient : Client :=
  { id := some (.intV 1), last_name := "Ivanov", first_name := "Ivan",
    middle_name := "Petrovich", passport_series := "1234",
    passport_number := "567890", birth_date := "01-01-1990",
    phone := "+79991234567", email := "a@bc.de", address := "Moscow" }

/-- A second validated client with a different natural key. -/
def sampleClient2 : Client :=
  { id := some (.intV 2), last_name := "Petrov", first_name := "Petr",
    middle_name := "Ivanovich", passport_series := "4321",
    passport_number := "098765", birth_date := "31-05-1985",
    phone := "89991234567", email := "b@cd.ef", address := "Kazan" }

/-- The raw projection of `sampleClient`. -/
def sampleRec : RawRecord := client_to_dict sampleClient

/-- The raw projection of `sampleClient2`. -/
def sampleRec2 : RawRecord := client_to_dict sampleClient2

/-! ## Claim C9 -/

/-- **C9**: the `Client` constructor stores any `id` value verbatim,
with no type or format validation — swapping in an arbitrary id value
(non-numeric string, opaque object, …) never changes acceptance, while
every other field really is validated (names non-empty and letters-only,
passports exactly 4/6 digits, birth date a well-formed existing date);
the `ClientShort` constructor instead rejects an id that is neither
`None`, an `int`, nor a digits-only string. -/
theorem c9_client_id_unvalidated :
    (∀ (today : Date) (rec : RawRecord) (c0 : Client),
      parseClient today rec = .ok c0 →
      ((∀ idv : Option IdVal,
          parseClient today { rec with id := idv } = .ok { c0 with id := idv }) ∧
       c0.last_name ≠ "" ∧ c0.last_name.toList.all Char.isAlpha = true ∧
       c0.first_name ≠ "" ∧ c0.first_name.toList.all Char.isAlpha = true ∧
       c0.middle_name ≠ "" ∧ c0.middle_name.toList.all Char.isAlpha = true ∧
       c0.passport_series.toList.length = 4 ∧
       c0.passport_series.toList.all Char.isDigit = true ∧
       c0.passport_number.toList.length = 6 ∧
       c0.passport_number.toList.all Char.isDigit = true ∧
       (∃ dd mm yyyy, parseDMY c0.birth_date = some (dd, mm, yyyy) ∧
          dateExistsB yyyy mm dd = true))) ∧
    (∀ (today : Date) (p : String) (rec : RawRecord) (s0 : ClientShort),
      parseShort today p rec = .ok s0 →
      ((∀ tag, parseShort today p { rec with id := some (.otherV tag) } =
          .error .shortBadId) ∧
       (∀ s : String, pyDigits? s.toList = none →
          parseShort today p { rec with id := some (.strV s) } =
            .error .shortBadId) ∧
       (∀ (s : String) (k : Nat), pyDigits? s.toList = some k →
          parseShort today p { rec with id := some (.strV s) } =
            .ok { s0 with id := some (k : Int) }) ∧
       (∀ m : Int, parseShort today p { rec with id := some (.intV m) } =
          .ok { s0 with id := some m }))) := by
  constructor
  · intro today rec c0 h
    unfold parseClient at h
    cases hc : parseClientCore today rec with
    | error e => rw [hc] at h; cases h
    | ok c' =>
      rw [hc] at h
      simp only [Except.map, Except.ok.injEq] at h
      subst h
      obtain ⟨_, hln, hfn, hmn, hps, hpn, hbd, _, _, _, _⟩ :=
        parseClientCore_inv hc
      refine ⟨?_, ?_⟩
      · intro idv
        unfold parseClient
        rw [parseClientCore_set_id, hc]
        rfl
      · obtain ⟨_, hlne, hlal⟩ := letters_only_ok hln
        obtain ⟨_, hfne, hfal⟩ := letters_only_ok hfn
        obtain ⟨_, hmne, hmal⟩ := letters_only_ok hmn
        obtain ⟨hps4, hpsd⟩ := passport_series_ok hps
        obtain ⟨hpn6, hpnd⟩ := passport_number_ok hpn
        obtain ⟨dd, mm, yyyy, _, hex, _, hcanon⟩ := birth_date_ok_shape hbd
        refine ⟨hlne, hlal, hfne, hfal, hmne, hmal, hps4, hpsd, hpn6, hpnd,
          dd, mm, yyyy, ?_, hex⟩
        have hb := dateExistsB_bounds hex
        show parseDMY c'.birth_date = some (dd, mm, yyyy)
        rw [hcanon]
        exact parseDMY_canon (by omega) (by omega) (by omega)
  · intro today p rec s0 h
    unfold parseShort at h
    simp only [bind, Except.bind] at h
    cases hsc : parseShortCore today p rec with
    | error e => rw [hsc] at h; cases h
    | ok s' =>
      rw [hsc] at h
      cases hni : shortNormId rec.id with
      | error e => rw [hni] at h; cases h
      | ok i =>
        rw [hni] at h
        simp only [pure, Except.pure, Except.ok.injEq] at h
        subst h
        refine ⟨?_, ?_, ?_, ?_⟩
        · intro tag
          unfold parseShort
          simp only [bind, Except.bind]
          rw [parseShortCore_set_id, hsc]
          rfl
        · intro s hds
          unfold parseShort
          simp only [bind, Except.bind]
          rw [parseShortCore_set_id, hsc]
          dsimp only [shortNormId]
          rw [hds]
        · intro s k hds
          unfold parseShort
          simp only [bind, Except.bind]
          rw [parseShortCore_set_id, hsc]
          dsimp only [shortNormId]
          rw [hds]
          rfl
        · intro m
          unfold parseShort
          simp only [bind, Except.bind]
          rw [parseShortCore_set_id, hsc]
          rfl

/-- Witness for C9 at a concrete record carrying an opaque object as id
for the `Client` side and the same id for the `ClientShort` side. -/
theorem c9_client_id_unvalidated_witness :
    parseClient sampleToday { sampleRec with id := some (.otherV "obj") } =
      .ok { sampleClient with id := some (.otherV "obj") } ∧
    parseShort sampleToday "phone"
      { sampleRec with id := some (.otherV "obj"), address := none } =
      .error .shortBadId := by
  constructor
  · exact (c9_client_id_unvalidated.1 sampleToday sampleRec sampleClient
      (by decide)).1 (some (.otherV "obj"))
  · have h := ((c9_client_id_unvalidated.2 sampleToday "phone"
      { sampleRec with id := none, address := none }
      { id := none, last_name := "Ivanov", first_name := "Ivan",
        middle_name := "Petrovich", birth_date := "01-01-1990",
        passport := "1234 567890", contact_type := "phone",
        contact := "+79991234567" } (by decide)).1) "obj"
    exact h

/-! ## Claim C10 -/

/-- **C10**: `get_by_id` honours `allow_raw_fallback` only when the
`_clean` source exists but holds no matching record (then `False` yields
`NotFound` even if the raw file matches); when the `_clean` source is
absent, the tolerant raw-read fallback runs regardless of the flag, and
a raw match is returned even with `allow_raw_fallback = False`. -/
theorem c10_get_by_id_fallback :
    ∀ (today : Date) (st : RepoState) (target : Int),
      (st.clean = none →
        (∀ b : Bool, get_by_id today st target b = get_by_id today st target true) ∧
        (∀ m rest,
          (read_all_ok today st).filter (fun c => pyIdOptEq c.id target) =
            m :: rest →
          get_by_id today st target false =
            .ok (some m, if rest.length > 0 then [.duplicateId] else []))) ∧
      (∀ recs, st.clean = some recs →
        recs.filter (matchesId target) = [] →
        get_by_id today st target false = .ok (none, [.notFound])) := by
  intro today st target
  constructor
  · intro hclean
    constructor
    · intro b
      unfold get_by_id
      rw [hclean]
    · intro m rest hfil
      unfold get_by_id
      rw [hclean]
      dsimp only
      rw [hfil]
      rfl
  · intro recs hclean hfil
    unfold get_by_id
    rw [hclean]
    dsimp only
    rw [hfil]
    rfl

/-- Witness for C10: with `_clean` absent the raw match with id 1 is
returned despite `allow_raw_fallback = false`, and with an empty
`_clean` present the same call reports `NotFound`. -/
theorem c10_get_by_id_fallback_witness :
    get_by_id sampleToday { raw := some [sampleRec], clean := none } 1 false =
      .ok (some sampleClient, []) ∧
    get_by_id sampleToday { raw := some [sampleRec], clean := some [] } 1
      false = .ok (none, [.notFound]) := by
  constructor
  · exact ((c10_get_by_id_fallback sampleToday
      { raw := some [sampleRec], clean := none } 1).1 rfl).2
      sampleClient [] (by decide)
  · exact (c10_get_by_id_fallback sampleToday
      { raw := some [sampleRec], clean := some [] } 1).2 [] rfl (by decide)

/-! ## Claim C8 -/

/-- Evaluation of the birth-date validator once the trimmed string has
the DD-MM-YYYY shape. -/
theorem birth_date_eval {today : Date} {s : String} {dd mm yyyy : Nat}
    (hp : parseDMY (pyStrip s) = some (dd, mm, yyyy)) :
    birth_date_dd_mm_yyyy today s =
      if dateExistsB yyyy mm dd = true then
        (if dateLtB today ⟨yyyy, mm, dd⟩ = true then .error .birthFuture
         else .ok (canonDMY dd mm yyyy))
      else .error .birthNonexistent := by
  have hne : ¬ pyStrip s = "" := by
    intro h
    rw [h] at hp
    exact Option.noConfusion hp
  unfold birth_date_dd_mm_yyyy require_non_empty
  rw [if_neg hne]
  simp only [bind, Except.bind]
  rw [hp]
  rfl

/-- **C8 counterexample**: the claim says the validator succeeds *only
when the (input) string matches DD-MM-YYYY*; the input
`" 01-01-1990 "` does not match that format (`parseDMY`, the
`re.fullmatch(r"\d{2}-\d{2}-\d{4}", ·)` shape check, rejects it), yet
`birth_date_dd_mm_yyyy` succeeds on it, because `require_non_empty`
strips the string before the format check. -/
theorem c8_counterexample :
    birth_date_dd_mm_yyyy sampleToday " 01-01-1990 " = .ok "01-01-1990" ∧
    parseDMY " 01-01-1990 " = none := by decide

/-- **C8 (amended)**: for every input string, the validator succeeds iff
the *trimmed* string matches DD-MM-YYYY, denotes a real calendar date,
and is not strictly after today — in which case it returns the
zero-padded canonical form — and on a format-matching but non-existent
date (such as 31-02-1990) it fails with the error identifying the date
as non-existent (and with the future-date error when the existing date
lies after today). -/
theorem c8_birth_date_validator_amended :
    ∀ (today : Date) (s : String),
      ((∃ r, birth_date_dd_mm_yyyy today s = .ok r) ↔
        (∃ dd mm yyyy, parseDMY (pyStrip s) = some (dd, mm, yyyy) ∧
          dateExistsB yyyy mm dd = true ∧
          dateLtB today ⟨yyyy, mm, dd⟩ = false)) ∧
      (∀ dd mm yyyy, parseDMY (pyStrip s) = some (dd, mm, yyyy) →
        (dateExistsB yyyy mm dd = true →
          dateLtB today ⟨yyyy, mm, dd⟩ = false →
          birth_date_dd_mm_yyyy today s = .ok (canonDMY dd mm yyyy)) ∧
        (dateExistsB yyyy mm dd = false →
          birth_date_dd_mm_yyyy today s = .error .birthNonexistent) ∧
        (dateExistsB yyyy mm dd = true →
          dateLtB today ⟨yyyy, mm, dd⟩ = true →
          birth_date_dd_mm_yyyy today s = .error .birthFuture)) := by
  intro today s
  constructor
  · constructor
    · rintro ⟨r, hr⟩
      obtain ⟨dd, mm, yyyy, hp, hex, hfut, _⟩ := birth_date_ok_shape hr
      exact ⟨dd, mm, yyyy, hp, hex, hfut⟩
    · rintro ⟨dd, mm, yyyy, hp, hex, hfut⟩
      refine ⟨canonDMY dd mm yyyy, ?_⟩
      rw [birth_date_eval hp, if_pos hex, if_neg (by simp [hfut])]
  · intro dd mm yyyy hp
    refine ⟨?_, ?_, ?_⟩
    · intro hex hfut
      rw [birth_date_eval hp, if_pos hex, if_neg (by simp [hfut])]
    · intro hex
      rw [birth_date_eval hp, if_neg (by simp [hex])]
    · intro hex hfut
      rw [birth_date_eval hp, if_pos hex, if_pos hfut]

/-- Witness for the amended C8 at the non-existent date 31-02-1990. -/
theorem c8_birth_date_validator_amended_witness :
    parseDMY (pyStrip "31-02-1990") = some (31, 2, 1990) ∧
    birth_date_dd_mm_yyyy sampleToday "31-02-1990" =
      .error .birthNonexistent :=
  ⟨by decide,
   ((c8_birth_date_validator_amended sampleToday "31-02-1990").2 31 2 1990
     (by decide)).2.1 (by decide)⟩

/-! ## Claim C2 -/

/-- **C2**: for validly-constructed `Client` entities, `Client.__eq__`
holds iff the natural-key tuples (last/first/middle name, birth date,
passport series/number, phone, email) are equal; clients differing only
in `id` and/or `address` are equal; and this relation is exactly the one
`add_client` and `replace_by_id` use to detect duplicates (for
`replace_by_id`, restricted to entities whose id differs from the
target). -/
theorem c2_natural_key_equality :
    (∀ a b : Client,
      clientEqB a b = true ↔
        (a.last_name = b.last_name ∧ a.first_name = b.first_name ∧
         a.middle_name = b.middle_name ∧ a.birth_date = b.birth_date ∧
         a.passport_series = b.passport_series ∧
         a.passport_number = b.passport_number ∧
         a.phone = b.phone ∧ a.email = b.email)) ∧
    (∀ (a : Client) (i₁ i₂ : Option IdVal) (ad₁ ad₂ : String),
      clientEqB { a with id := i₁, address := ad₁ }
        { a with id := i₂, address := ad₂ } = true) ∧
    (∀ (today : Date) (st : RepoState) (data : PayloadInput) (new0 : Client),
      normalizePayload today data = .ok new0 →
      ((∃ ids, (add_client today st data).1 = .error (.duplicateClient ids)) ↔
        ∃ c ∈ read_all_ok today st, clientEqB c new0 = true)) ∧
    (∀ (today : Date) (st : RepoState) (target : Int) (data : PayloadInput)
       (new0 found : Client) (errs : List RepErr),
      get_by_id today st target true = .ok (some found, errs) →
      normalizePayload today data = .ok new0 →
      new0.id = some (.intV target) →
      ((∃ ids,
          (replace_by_id today st target data).1 =
            .error (.duplicateClient ids)) ↔
        ∃ c ∈ read_all_ok today st,
          ((! pyIdOptEq c.id target) && clientEqB c new0) = true)) := by
  refine ⟨?_, ?_, ?_, ?_⟩
  · intro a b
    simp [clientEqB, natural_key]
  · intro a i₁ i₂ ad₁ ad₂
    simp [clientEqB, natural_key]
  · intro today st data new0 h
    simp only [add_client, h]
    by_cases hdup :
        ((read_all_ok today st).filter (fun c => clientEqB c new0)).map
          (fun c => c.id) ≠ []
    · rw [if_pos hdup]
      constructor
      · intro _
        have hne : (read_all_ok today st).filter (fun x => clientEqB x new0) ≠ [] := by
          intro hnil
          exact hdup (by rw [hnil]; rfl)
        obtain ⟨c, cs, hc⟩ := List.exists_cons_of_ne_nil hne
        have : c ∈ (read_all_ok today st).filter (fun x => clientEqB x new0) := by
          rw [hc]; simp
        rw [List.mem_filter] at this
        exact ⟨c, this.1, this.2⟩
      · intro _; exact ⟨_, rfl⟩
    · rw [if_neg hdup]
      rw [not_not, List.map_eq_nil_iff, List.filter_eq_nil_iff] at hdup
      constructor
      · rintro ⟨ids, h'⟩; cases h'
      · rintro ⟨c, hmem, hceq⟩
        exact absurd hceq (by simpa using hdup c hmem)
  · intro today st target data new0 found errs hget hnorm hid
    have hpy : pyIdEq (.intV target) target = true := by simp [pyIdEq]
    simp only [replace_by_id, hget, hnorm, hid, hpy, Bool.not_true,
      Bool.false_eq_true, if_false]
    by_cases hdup :
        ((read_all_ok today st).filter
          (fun c => (! pyIdOptEq c.id target) && clientEqB c new0)).map
            (fun c => c.id) ≠ []
    · rw [if_pos hdup]
      constructor
      · intro _
        have hne : (read_all_ok today st).filter
            (fun x => (! pyIdOptEq x.id target) && clientEqB x new0) ≠ [] := by
          intro hnil
          exact hdup (by rw [hnil]; rfl)
        obtain ⟨c, cs, hc⟩ := List.exists_cons_of_ne_nil hne
        have : c ∈ (read_all_ok today st).filter
            (fun x => (! pyIdOptEq x.id target) && clientEqB x new0) := by
          rw [hc]; simp
        rw [List.mem_filter] at this
        exact ⟨c, this.1, this.2⟩
      · intro _; exact ⟨_, rfl⟩
    · rw [if_neg hdup]
      rw [not_not, List.map_eq_nil_iff, List.filter_eq_nil_iff] at hdup
      constructor
      · rintro ⟨ids, h'⟩
        exfalso
        split at h'
        · simp at h'
        · split at h' <;> simp at h'
      · rintro ⟨c, hmem, hceq⟩
        exact absurd hceq (by simpa using hdup c hmem)

/-- Witness for C2 at concrete entities and a concrete repository
state. -/
theorem c2_natural_key_equality_witness :
    (clientEqB
      { id := some (.intV 1), last_name := "Ivanov", first_name := "Ivan",
        middle_name := "Petrovich", passport_series := "1234",
        passport_number := "567890", birth_date := "01-01-1990",
        phone := "+79991234567", email := "a@bc.de", address := "Moscow" }
      { id := some (.intV 9), last_name := "Ivanov", first_name := "Ivan",
        middle_name := "Petrovich", passport_series := "1234",
        passport_number := "567890", birth_date := "01-01-1990",
        phone := "+79991234567", email := "a@bc.de", address := "Kazan" }
      = true) := by
  have h := (c2_natural_key_equality.1
    { id := some (.intV 1), last_name := "Ivanov", first_name := "Ivan",
      middle_name := "Petrovich", passport_series := "1234",
      passport_number := "567890", birth_date := "01-01-1990",
      phone := "+79991234567", email := "a@bc.de", address := "Moscow" }
    { id := some (.intV 9), last_name := "Ivanov", first_name := "Ivan",
      middle_name := "Petrovich", passport_series := "1234",
      passport_number := "567890", birth_date := "01-01-1990",
      phone := "+79991234567", email := "a@bc.de", address := "Kazan" })
  exact h.mpr (by decide)

/-! ## Claim C3 -/

/-- **C3**: when some currently-valid entity (tolerant scan of the raw
source) shares the payload's natural key, `add_client` rejects with
`DuplicateClient` carrying exactly the conflicting id(s) (a non-empty
list), and the stored raw collection is unchanged — the returned state
is the input state, so no write occurs and the record count is
preserved. -/
theorem c3_add_client_duplicate_rejected :
    ∀ (today : Date) (st : RepoState) (data : PayloadInput) (new0 : Client),
      normalizePayload today data = .ok new0 →
      (∃ c ∈ read_all_ok today st, clientEqB c new0 = true) →
      ∃ ids, ids ≠ [] ∧
        ids = ((read_all_ok today st).filter (fun c => clientEqB c new0)).map
          (fun c => c.id) ∧
        add_client today st data = (.error (.duplicateClient ids), st) := by
  rintro today st data new0 hn ⟨c, hc, hceq⟩
  have hdup : ((read_all_ok today st).filter
      (fun c => clientEqB c new0)).map (fun c => c.id) ≠ [] := by
    intro hnil
    rw [List.map_eq_nil_iff, List.filter_eq_nil_iff] at hnil
    exact hnil c hc (by simp [hceq])
  refine ⟨_, hdup, rfl, ?_⟩
  simp only [add_client, hn]
  rw [if_pos hdup]

/-- Witness for C3: adding a client whose natural key matches the stored
`sampleClient` (only `id`/`address` differ) is rejected and the state is
returned unchanged. -/
theorem c3_add_client_duplicate_rejected_witness :
    ∃ ids, ids ≠ [] ∧
      ids = ((read_all_ok sampleToday
          { raw := some [sampleRec], clean := none }).filter
            (fun c =>
              clientEqB c { sampleClient with id := none, address := "Tver" })).map
        (fun c => c.id) ∧
      add_client sampleToday { raw := some [sampleRec], clean := none }
        (.client { sampleClient with id := none, address := "Tver" }) =
        (.error (.duplicateClient ids),
         { raw := some [sampleRec], clean := none }) :=
  c3_add_client_duplicate_rejected sampleToday
    { raw := some [sampleRec], clean := none }
    (.client { sampleClient with id := none, address := "Tver" })
    { sampleClient with id := none, address := "Tver" } rfl
    ⟨sampleClient, by decide, by decide⟩

/-! ## Claim C4 -/

/-- **C4**: for a non-duplicate payload, `add_client` assigns the id
`max(existing numeric raw ids) + 1` (`newId - 1` is a member of and an
upper bound of the normalised raw ids; `1` when no raw record carries a
numeric id), appends the stored entity's projection to the raw
collection, persists it, and returns the stored entity carrying the new
id. -/
theorem c4_add_client_assigns_next_id :
    ∀ (today : Date) (st : RepoState) (data : PayloadInput) (new0 : Client),
      normalizePayload today data = .ok new0 →
      (∀ c ∈ read_all_ok today st, clientEqB c new0 = false) →
      ∃ newId : Int,
        add_client today st data =
          (.ok { new0 with id := some (.intV newId) },
           { st with raw := some ((st.raw.getD []) ++
               [client_to_dict { new0 with id := some (.intV newId) }]) }) ∧
        ((st.raw.getD []).filterMap normRecId = [] → newId = 1) ∧
        ((st.raw.getD []).filterMap normRecId ≠ [] →
           (newId - 1) ∈ (st.raw.getD []).filterMap normRecId ∧
           ∀ x ∈ (st.raw.getD []).filterMap normRecId, x ≤ newId - 1) := by
  intro today st data new0 hn hnodup
  have hdup : ¬ ((read_all_ok today st).filter
      (fun c => clientEqB c new0)).map (fun c => c.id) ≠ [] := by
    rw [not_not, List.map_eq_nil_iff, List.filter_eq_nil_iff]
    intro c hc
    simp [hnodup c hc]
  simp only [add_client, hn]
  rw [if_neg hdup]
  refine ⟨_, rfl, ?_, ?_⟩
  · intro hids
    rw [hids]
    rfl
  · intro hids
    cases hm : ((st.raw.getD []).filterMap normRecId).max? with
    | none => exact absurd (List.max?_eq_none_iff.mp hm) hids
    | some m =>
      have hmem := List.max?_mem max_choice hm
      have hub := (List.max?_le_iff (fun a b c => max_le_iff) hm).mp (le_refl m)
      dsimp only
      constructor
      · simpa using hmem
      · intro x hx
        have := hub x hx
        omega

/-- Witness for C4: adding `sampleClient2` next to the stored
`sampleClient` (raw id 1) assigns id 2 and appends the projection. -/
theorem c4_add_client_assigns_next_id_witness :
    ∃ newId : Int,
      add_client sampleToday { raw := some [sampleRec], clean := none }
        (.client sampleClient2) =
        (.ok { sampleClient2 with id := some (.intV newId) },
         { raw := some ([sampleRec] ++
             [client_to_dict { sampleClient2 with id := some (.intV newId) }]),
           clean := none }) ∧
      (([sampleRec].filterMap normRecId : List Int) = [] → newId = 1) ∧
      (([sampleRec].filterMap normRecId : List Int) ≠ [] →
         (newId - 1) ∈ [sampleRec].filterMap normRecId ∧
         ∀ x ∈ [sampleRec].filterMap normRecId, x ≤ newId - 1) :=
  c4_add_client_assigns_next_id sampleToday
    { raw := some [sampleRec], clean := none } (.client sampleClient2)
    sampleClient2 rfl (by decide)

/-! ## Lemmas about the id index scan -/

theorem matchIdxsAux_eq_nil {t : Int} :
    ∀ (rs : List RawRecord) (n : Nat),
      matchIdxsAux t rs n = [] ↔ ∀ r ∈ rs, matchesId t r = false := by
  intro rs
  induction rs with
  | nil => intro n; simp [matchIdxsAux]
  | cons r rs ih =>
    intro n
    by_cases h : matchesId t r = true
    · simp [matchIdxsAux, h]
    · rw [Bool.not_eq_true] at h
      simp [matchIdxsAux, h, ih (n + 1)]

theorem matchIdxsAux_singleton {t : Int} :
    ∀ (rs : List RawRecord) (n i : Nat) (rec : RawRecord),
      matchIdxsAux t rs n = [(i, rec)] →
      ∃ j, i = n + j ∧ matchesId t rec = true ∧
        (∀ r ∈ rs.eraseIdx j, matchesId t r = false) := by
  intro rs
  induction rs with
  | nil => intro n i rec h; exact absurd h (by simp [matchIdxsAux])
  | cons r rs ih =>
    intro n i rec h
    by_cases hr : matchesId t r = true
    · rw [matchIdxsAux, if_pos hr] at h
      simp only [List.cons.injEq, Prod.mk.injEq] at h
      obtain ⟨⟨hi, hrec⟩, hrest⟩ := h
      refine ⟨0, by omega, hrec ▸ hr, ?_⟩
      intro x hx
      exact (matchIdxsAux_eq_nil rs (n + 1)).mp hrest x (by simpa using hx)
    · rw [matchIdxsAux, if_neg hr] at h
      obtain ⟨j, hj, hm, herase⟩ := ih (n + 1) i rec h
      refine ⟨j + 1, by omega, hm, ?_⟩
      intro x hx
      rw [List.eraseIdx_cons_succ] at hx
      rcases List.mem_cons.mp hx with hxr | hxr
      · subst hxr
        exact Bool.not_eq_true _ ▸ hr
      · exact herase x hxr

/-! ## Claim C6 -/

/-- **C6**: `delete_by_id` returns `(None, [NotFound])` when the source
is missing or zero raw records match (the index scan is empty exactly
when no record's normalised id equals the target); with more than one
match it returns `(None, [DuplicateId])` leaving storage unchanged; with
exactly one match it removes that record, persists, and returns the
deleted entity — or `(None, [non-fatal note])` when the removed record
fails validation, the deletion still effective — and a second delete of
the same id then reports `NotFound` without raising. -/
theorem c6_delete_by_id :
    ∀ (today : Date) (st : RepoState) (target : Int),
      (st.raw = none →
        delete_by_id today st target = ((none, [.notFound]), st)) ∧
      (∀ records, st.raw = some records →
        ((matchIdxs target records = [] ↔
            ∀ r ∈ records, matchesId target r = false) ∧
         (matchIdxs target records = [] →
            delete_by_id today st target = ((none, [.notFound]), st)) ∧
         (∀ p q rest, matchIdxs target records = p :: q :: rest →
            delete_by_id today st target = ((none, [.duplicateId]), st)) ∧
         (∀ i rec, matchIdxs target records = [(i, rec)] →
            matchesId target rec = true ∧
            (∀ c, parseClient today rec = .ok c →
              delete_by_id today st target =
                ((some c, []), { st with raw := some (records.eraseIdx i) })) ∧
            (∀ e, parseClient today rec = .error e →
              delete_by_id today st target =
                ((none, [.invalidDeleted e]),
                 { st with raw := some (records.eraseIdx i) })) ∧
            (delete_by_id today (delete_by_id today st target).2 target).1 =
              (none, [.notFound])))) := by
  intro today st target
  constructor
  · intro hraw
    unfold delete_by_id
    rw [hraw]
  · intro records hraw
    refine ⟨matchIdxsAux_eq_nil records 0, ?_, ?_, ?_⟩
    · intro hidx
      unfold delete_by_id
      rw [hraw]
      dsimp only
      rw [hidx]
    · intro p q rest hidx
      unfold delete_by_id
      rw [hraw]
      dsimp only
      rw [hidx]
    · intro i rec hidx
      obtain ⟨j, hj, hm, herase⟩ := matchIdxsAux_singleton records 0 i rec hidx
      have hij : i = j := by omega
      subst hij
      have hdel1 : ∀ c, parseClient today rec = .ok c →
          delete_by_id today st target =
            ((some c, []), { st with raw := some (records.eraseIdx i) }) := by
        intro c hc
        unfold delete_by_id
        rw [hraw]
        dsimp only
        rw [hidx]
        dsimp only
        rw [hc]
      have hdel2 : ∀ e, parseClient today rec = .error e →
          delete_by_id today st target =
            ((none, [.invalidDeleted e]),
             { st with raw := some (records.eraseIdx i) }) := by
        intro e he
        unfold delete_by_id
        rw [hraw]
        dsimp only
        rw [hidx]
        dsimp only
        rw [he]
      refine ⟨hm, hdel1, hdel2, ?_⟩
      have hstate : (delete_by_id today st target).2 =
          { st with raw := some (records.eraseIdx i) } := by
        cases hp : parseClient today rec with
        | ok c => rw [hdel1 c hp]
        | error e => rw [hdel2 e hp]
      rw [hstate]
      have hnil : matchIdxs target (records.eraseIdx i) = [] :=
        (matchIdxsAux_eq_nil (records.eraseIdx i) 0).mpr herase
      unfold delete_by_id
      dsimp only
      rw [hnil]

/-- Witness for C6: deleting id 1 from a two-record store removes the
record, and the composed double-delete facts follow from the single
theorem application. -/
theorem c6_delete_by_id_witness :
    delete_by_id sampleToday
      { raw := some [sampleRec, sampleRec2], clean := none } 1 =
      ((some sampleClient, []),
       { raw := some [sampleRec2], clean := none }) ∧
    (delete_by_id sampleToday
      (delete_by_id sampleToday
        { raw := some [sampleRec, sampleRec2], clean := none } 1).2 1).1 =
      (none, [.notFound]) := by
  have h := ((c6_delete_by_id sampleToday
    { raw := some [sampleRec, sampleRec2], clean := none } 1).2
    [sampleRec, sampleRec2] rfl).2.2.2 0 sampleRec (by decide)
  exact ⟨h.2.1 sampleClient (by decide), h.2.2.2⟩

/-! ## Claim C5 -/

/-- A raw store carrying two records with id 1 (same natural key) plus a
record with id 2 whose natural key equals the C5 counterexample's
payload. -/
def c5recs : List RawRecord :=
  [sampleRec, { sampleRec with address := some "Tver" }, sampleRec2]

/-- The repository state over `c5recs` (no `_clean` source). -/
def c5st : RepoState := { raw := some c5recs, clean := none }

/-- **C5 counterexample**: the target id 1 resolves, the payload carries
no id, *more than one* raw record carries id 1 — the claim says
`replace_by_id` must reject as `DuplicateId` — yet the call rejects as
`DuplicateClient` (the payload's natural key matches the record with
id 2), because the natural-key duplicate check runs before the
ambiguous-id check.  Storage is still unchanged. -/
theorem c5_counterexample :
    replace_by_id sampleToday c5st 1
      (.client { sampleClient2 with id := none }) =
      (.error (.duplicateClient [some (.intV 2)]), c5st) ∧
    (matchIdxs 1 c5recs).length = 2 := by decide

/-- **C5 (amended)**: when the target id resolves via `get_by_id` and
the payload's own id is present and Python-unequal to the target,
`replace_by_id` rejects with the mismatch error leaving the state
unchanged; and when additionally the payload id is absent or equal, the
payload is *not* a natural-key duplicate of any valid record with
another id, and more than one raw record carries the target id,
`replace_by_id` rejects as `DuplicateId` without writing. -/
theorem c5_replace_by_id_amended :
    ∀ (today : Date) (st : RepoState) (target : Int) (data : PayloadInput)
      (new0 found : Client) (errs : List RepErr),
      get_by_id today st target true = .ok (some found, errs) →
      normalizePayload today data = .ok new0 →
      ((∀ v, new0.id = some v → pyIdEq v target = false →
          replace_by_id today st target data = (.error .mismatchedId, st)) ∧
       ((new0.id = none ∨ new0.id = some (.intV target)) →
        (∀ c ∈ read_all_ok today st,
            ((! pyIdOptEq c.id target) && clientEqB c new0) = false) →
        ∀ records p q rest, st.raw = some records →
          matchIdxs target records = p :: q :: rest →
          replace_by_id today st target data =
            (.error .duplicateId, st))) := by
  intro today st target data new0 found errs hget hnorm
  constructor
  · intro v hv hne
    simp only [replace_by_id, hget, hnorm, hv, hne, Bool.not_false, if_true]
  · intro hid hnodup records p q rest hraw hidx
    have hdup : ¬ ((read_all_ok today st).filter
        (fun c => (! pyIdOptEq c.id target) && clientEqB c new0)).map
          (fun c => c.id) ≠ [] := by
      rw [not_not, List.map_eq_nil_iff, List.filter_eq_nil_iff]
      intro c hc
      simp [hnodup c hc]
    have hpy : pyIdEq (.intV target) target = true := by simp [pyIdEq]
    rcases hid with hid | hid
    · simp only [replace_by_id, hget, hnorm, hid]
      rw [if_neg (by simp)]
      rw [if_neg hdup, hraw]
      dsimp only
      rw [hidx]
    · simp only [replace_by_id, hget, hnorm, hid, hpy, Bool.not_true,
        Bool.false_eq_true, if_false]
      rw [if_neg hdup, hraw]
      dsimp only
      rw [hidx]

/-- Witness for the amended C5: a payload carrying id 2 against target 1
is rejected as a mismatch, and a payload without id against a store
carrying id 1 twice is rejected as `DuplicateId`; both leave the state
unchanged. -/
theorem c5_replace_by_id_amended_witness :
    replace_by_id sampleToday { raw := some [sampleRec], clean := none } 1
      (.client sampleClient2) =
      (.error .mismatchedId, { raw := some [sampleRec], clean := none }) ∧
    replace_by_id sampleToday
      { raw := some [sampleRec, { sampleRec with address := some "Tver" }],
        clean := none } 1 (.client { sampleClient with id := none }) =
      (.error .duplicateId,
       { raw := some [sampleRec, { sampleRec with address := some "Tver" }],
         clean := none }) := by
  constructor
  · exact (c5_replace_by_id_amended sampleToday
      { raw := some [sampleRec], clean := none } 1 (.client sampleClient2)
      sampleClient2 sampleClient [] (by decide) rfl).1
      (.intV 2) rfl (by decide)
  · exact (c5_replace_by_id_amended sampleToday
      { raw := some [sampleRec, { sampleRec with address := some "Tver" }],
        clean := none } 1 (.client { sampleClient with id := none })
      { sampleClient with id := none } sampleClient [.duplicateId]
      (by decide) rfl).2 (Or.inl rfl) (by decide)
      [sampleRec, { sampleRec with address := some "Tver" }]
      (0, sampleRec) (1, { sampleRec with address := some "Tver" }) []
      rfl (by decide)

/-! ## Claim C7 -/

/-- Concatenating the `⌈L/nn⌉` successive `nn`-sized slices of a list
reproduces the list. -/
theorem join_pages {α : Type _} (nn : Nat) (hn : 0 < nn) :
    ∀ (L : Nat) (l : List α), l.length = L →
      ((List.range ((L + nn - 1) / nn)).map
        (fun i => (l.drop (i * nn)).take nn)).flatten = l := by
  intro L
  induction L using Nat.strong_induction_on with
  | _ L ih =>
    intro l hL
    cases l with
    | nil =>
      have : L = 0 := by simpa using hL.symm
      subst this
      have : (0 + nn - 1) / nn = 0 := Nat.div_eq_of_lt (by omega)
      simp [this]
    | cons a l' =>
      have hL0 : 0 < L := by rw [← hL]; simp
      have hnum : (L + nn - 1) / nn = ((L - nn) + nn - 1) / nn + 1 := by
        rcases le_or_lt L nn with hle | hlt
        · have h1 : (L + nn - 1) / nn = (L - 1) / nn + 1 := by
            rw [show L + nn - 1 = (L - 1) + nn by omega, Nat.add_div_right _ hn]
          have h2 : (L - 1) / nn = 0 := Nat.div_eq_of_lt (by omega)
          have h3 : L - nn = 0 := by omega
          have h4 : (0 + nn - 1) / nn = 0 := Nat.div_eq_of_lt (by omega)
          rw [h1, h2, h3, h4]
        · rw [show L + nn - 1 = (L - 1) + nn by omega, Nat.add_div_right _ hn,
            show (L - nn) + nn - 1 = (L - nn - 1) + nn by omega,
            Nat.add_div_right _ hn,
            show L - 1 = (L - nn - 1) + nn by omega,
            Nat.add_div_right _ hn]
      rw [hnum, List.range_succ_eq_map, List.map_cons, List.map_map,
        List.flatten_cons]
      have hhead : ((a :: l').drop (0 * nn)).take nn = (a :: l').take nn := by
        simp
      have htail :
          (List.range (((L - nn) + nn - 1) / nn)).map
              ((fun i => ((a :: l').drop (i * nn)).take nn) ∘ Nat.succ) =
            (List.range (((L - nn) + nn - 1) / nn)).map
              (fun i => (((a :: l').drop nn).drop (i * nn)).take nn) := by
        refine List.map_congr_left ?_
        intro i _
        simp only [Function.comp]
        rw [List.drop_drop]
        congr 1
        rw [Nat.succ_mul]
        exact congrArg (fun x => List.drop x (a :: l')) (Nat.add_comm _ _)
      rw [hhead, htail, ih (L - nn) (Nat.sub_lt hL0 hn) ((a :: l').drop nn)
        (by rw [List.length_drop, hL])]
      exact List.take_append_drop nn (a :: l')

/-- **C7**: over a clean record set of size `N` (every record parsing as
a short projection), non-positive `k` or `n` raises the argument error;
positive pages return exactly `min(n, max(0, N-(k-1)*n))` projections,
out-of-range pages are an empty list rather than an error, and
concatenating pages `k = 1 .. ⌈N/n⌉` reproduces the full ordered set
with no gaps or overlaps. -/
theorem c7_pagination :
    ∀ (today : Date) (st : RepoState) (prefer : String)
      (recs : List RawRecord) (shorts : List ClientShort),
      st.clean = some recs →
      mapE (fun r => parseShort today prefer r) recs = .ok shorts →
      ((∀ k n : Int, ¬ (k > 0 ∧ n > 0) →
          get_k_n_short_list today st k n prefer = .error .argErr) ∧
       (∀ k n : Int, 0 < k → 0 < n →
          ∃ page, get_k_n_short_list today st k n prefer = .ok page ∧
            (page.length : Int) =
              min n (max 0 ((recs.length : Int) - (k - 1) * n)) ∧
            ((recs.length : Int) ≤ (k - 1) * n → page = [])) ∧
       (∀ n : Nat, 0 < n →
          ((List.range ((recs.length + n - 1) / n)).map
            (fun (i : Nat) => (get_k_n_short_list today st ((i : Int) + 1) (n : Int)
                prefer).toOption.getD [])).flatten = shorts)) := by
  intro today st prefer recs shorts hclean hshorts
  have hlen : shorts.length = recs.length := mapE_length hshorts
  have hpage : ∀ k n : Int, 0 < k → 0 < n →
      get_k_n_short_list today st k n prefer =
        .ok ((shorts.drop ((k - 1) * n).toNat).take n.toNat) := by
    intro k n hk hn
    unfold get_k_n_short_list
    rw [if_neg (by simp only [not_not]; exact ⟨hk, hn⟩)]
    rw [hclean]
    dsimp only
    rw [hshorts]
  refine ⟨?_, ?_, ?_⟩
  · intro k n h
    unfold get_k_n_short_list
    rw [if_pos h]
  · intro k n hk hn
    refine ⟨_, hpage k n hk hn, ?_, ?_⟩
    · have hs : 0 ≤ (k - 1) * n := mul_nonneg (by omega) (by omega)
      have hl : ((shorts.drop ((k - 1) * n).toNat).take n.toNat).length =
          min n.toNat (shorts.length - ((k - 1) * n).toNat) := by
        rw [List.length_take, List.length_drop]
      rw [hl, ← hlen]
      omega
    · intro hout
      have hs : 0 ≤ (k - 1) * n := mul_nonneg (by omega) (by omega)
      have : shorts.length ≤ ((k - 1) * n).toNat := by
        rw [hlen]; omega
      rw [List.drop_eq_nil_of_le this]
      simp
  · intro n hn
    have hpages : ∀ i : Nat,
        (get_k_n_short_list today st ((i : Int) + 1) (n : Int)
          prefer).toOption.getD [] = (shorts.drop (i * n)).take n := by
      intro i
      rw [hpage ((i : Int) + 1) (n : Int) (by omega) (by exact_mod_cast hn)]
      have h1 : (((i : Int) + 1 - 1) * (n : Int)).toNat = i * n := by
        have : ((i : Int) + 1 - 1) * (n : Int) = ((i * n : Nat) : Int) := by
          push_cast
          ring
        rw [this, Int.toNat_natCast]
      have h2 : ((n : Int)).toNat = n := Int.toNat_natCast n
      rw [h1, h2]
      rfl
    calc ((List.range ((recs.length + n - 1) / n)).map
            (fun (i : Nat) => (get_k_n_short_list today st ((i : Int) + 1) (n : Int)
                prefer).toOption.getD [])).flatten
        = ((List.range ((shorts.length + n - 1) / n)).map
            (fun i => (shorts.drop (i * n)).take n)).flatten := by
          rw [hlen]
          exact congrArg List.flatten (List.map_congr_left (fun i _ => hpages i))
      _ = shorts := join_pages n hn shorts.length shorts rfl

/-- Witness for C7 over a two-record clean set with page size 1. -/
theorem c7_pagination_witness :
    get_k_n_short_list sampleToday
      { raw := none, clean := some [sampleRec, sampleRec2] } 0 1 "phone" =
      .error .argErr ∧
    (∃ page, get_k_n_short_list sampleToday
        { raw := none, clean := some [sampleRec, sampleRec2] } 1 1 "phone" =
        .ok page ∧
      (page.length : Int) = min 1 (max 0 ((2 : Int) - 0 * 1)) ∧
      ((2 : Int) ≤ (1 - 1) * 1 → page = [])) := by
  obtain ⟨h1, h2, _⟩ := c7_pagination sampleToday
    { raw := none, clean := some [sampleRec, sampleRec2] } "phone"
    [sampleRec, sampleRec2]
    [{ id := some 1, last_name := "Ivanov", first_name := "Ivan",
       middle_name := "Petrovich", birth_date := "01-01-1990",
       passport := "1234 567890", contact_type := "phone",
       contact := "+79991234567" },
     { id := some 2, last_name := "Petrov", first_name := "Petr",
       middle_name := "Ivanovich", birth_date := "31-05-1985",
       passport := "4321 098765", contact_type := "phone",
       contact := "89991234567" }] rfl (by decide)
  refine ⟨h1 0 1 (by omega), ?_⟩
  obtain ⟨page, hp, hlen, hout⟩ := h2 1 1 (by omega) (by omega)
  exact ⟨page, hp, by simpa using hlen, fun hh => absurd hh (by norm_num)⟩

/-! ## Claim C1: well-formed clients and supporting lemmas -/

/-- The id slot holds an `int`, as every repository-assigned id does. -/
def WFidB : Option IdVal → Bool
  | some (.intV _) => true
  | _ => false

/-- A validated client as both backends store it ("logically identical
data"): every field is a fixpoint of its validator (exactly what
construction through `Client(...)` produces), the id is a numeric id,
the passports are trim-invariant, and the birth date is the canonical
text of a real date (the value ↔ text bijection the SQL row model
relies on).  All conjuncts are decidable, so concrete instances are
checked by `decide`. -/
def WFClient (today : Date) (c : Client) : Prop :=
  letters_only "last_name" c.last_name = .ok c.last_name ∧
  letters_only "first_name" c.first_name = .ok c.first_name ∧
  letters_only "middle_name" c.middle_name = .ok c.middle_name ∧
  passport_series_v c.passport_series = .ok c.passport_series ∧
  passport_number_v c.passport_number = .ok c.passport_number ∧
  birth_date_dd_mm_yyyy today c.birth_date = .ok c.birth_date ∧
  phone_ru_strict c.phone = .ok c.phone ∧
  email_strict c.email = .ok c.email ∧
  address_required c.address = .ok c.address ∧
  WFidB c.id = true ∧
  pyStrip c.passport_series = c.passport_series ∧
  sqlTrim c.passport_series = c.passport_series ∧
  pyStrip c.passport_number = c.passport_number ∧
  sqlTrim c.passport_number = c.passport_number ∧
  c.birth_date ≠ "" ∧
  (pyStrptimeDMY? c.birth_date).isSome = true ∧
  dateToDDMMYYYY ((pyStrptimeDMY? c.birth_date).getD ⟨1, 1, 1⟩) = c.birth_date

instance decWFClient (today : Date) (c : Client) :
    Decidable (WFClient today c) := by
  unfold WFClient
  infer_instance

/-- Re-validating a well-formed client's projection gives the client
back (`Client(client_to_dict(c)) == c`). -/
theorem parseClient_roundtrip {today : Date} {c : Client}
    (h : WFClient today c) :
    parseClient today (client_to_dict c) = .ok c := by
  obtain ⟨h1, h2, h3, h4, h5, h6, h7, h8, h9, _⟩ := h
  have hcore : parseClientCore today (client_to_dict c) =
      .ok { c with id := none } := by
    unfold parseClientCore client_to_dict
    rw [if_neg (by simp [missingOf])]
    simp only [Option.getD_some, bind, Except.bind, h1, h2, h3, h4, h5, h6,
      h7, h8, h9]
    rfl
  unfold parseClient
  rw [hcore]
  rfl

/-- `mapE` over projected inputs recovers the originals when each
projection re-parses to its source. -/
theorem mapE_roundtrip {α β : Type _} {ε : Type _} {f : β → Except ε α}
    {h : α → β} :
    ∀ l : List α, (∀ a ∈ l, f (h a) = .ok a) → mapE f (l.map h) = .ok l := by
  intro l
  induction l with
  | nil => intro _; rfl
  | cons a as ih =>
    intro hall
    simp only [List.map_cons, mapE, bind, Except.bind, hall a (by simp)]
    rw [ih (fun x hx => hall x (by simp [hx]))]
    rfl

/-- Boolean bridge between strict and non-strict date comparison
(`not (a < b)  ↔  b <= a`). -/
theorem not_dateLtB (a b : Date) : (! dateLtB a b) = dateLeB b a := by
  unfold dateLtB dateLeB
  by_cases h : a.code < b.code
  · rw [decide_eq_true h, decide_eq_false (by omega)]
    rfl
  · rw [decide_eq_false h, decide_eq_true (by omega)]
    rfl

/-- Membership is preserved by stable insertion. -/
theorem mem_stableInsert {α : Type _} (le : α → α → Bool) (a x : α) :
    ∀ l : List α, x ∈ stableInsert le a l ↔ x = a ∨ x ∈ l := by
  intro l
  induction l with
  | nil => simp [stableInsert]
  | cons b bs ih =>
    by_cases hb : le a b = true
    · simp [stableInsert, hb]
    · rw [Bool.not_eq_true] at hb
      simp only [stableInsert, hb]
      simp [ih]
      tauto

/-- Membership is preserved by the stable sort. -/
theorem mem_stableSortBy {α : Type _} (le : α → α → Bool) (x : α) :
    ∀ l : List α, x ∈ stableSortBy le l ↔ x ∈ l := by
  intro l
  induction l with
  | nil => simp [stableSortBy]
  | cons a as ih =>
    simp [stableSortBy, mem_stableInsert, ih]

/-- Stable insertion of a key/value pair commutes with pairing. -/
theorem stableInsert_map_pair {α β : Type _} (f : α → β) (le : β → β → Bool) :
    ∀ (l : List α) (a : α),
      stableInsert (fun x y => le x.1 y.1) (f a, a)
        (l.map (fun c => (f c, c))) =
      (stableInsert (fun x y => le (f x) (f y)) a l).map (fun c => (f c, c)) := by
  intro l
  induction l with
  | nil => intro a; rfl
  | cons b bs ih =>
    intro a
    by_cases hab : le (f a) (f b) = true
    · simp [stableInsert, hab]
    · rw [Bool.not_eq_true] at hab
      simp only [List.map_cons, stableInsert, hab, Bool.false_eq_true,
        if_false, List.map_cons]
      rw [ih a]

/-- Stable-sorting key/value pairs commutes with pairing. -/
theorem stableSortBy_map_pair {α β : Type _} (f : α → β) (le : β → β → Bool) :
    ∀ l : List α,
      stableSortBy (fun x y => le x.1 y.1) (l.map (fun c => (f c, c))) =
      (stableSortBy (fun x y => le (f x) (f y)) l).map (fun c => (f c, c)) := by
  intro l
  induction l with
  | nil => rfl
  | cons a as ih =>
    simp only [List.map_cons, stableSortBy]
    rw [ih, stableInsert_map_pair]

/-! ## Claim C1: LIKE-pattern versus substring containment -/

/-- A filter value free of SQL LIKE wildcard characters. -/
def noWild (s : String) : Bool :=
  s.toList.all (fun c => !(c == '%') && !(c == '_'))

theorem likeAux_trailing_pct :
    ∀ (s : List Char) (fuel : Nat), s.length + 2 ≤ fuel →
      likeAux fuel s ['%'] = true := by
  intro s
  induction s with
  | nil =>
    intro fuel h
    obtain ⟨f, rfl⟩ : ∃ f, fuel = f + 2 := ⟨fuel - 2, by omega⟩
    rfl
  | cons a s' ih =>
    intro fuel h
    obtain ⟨f, rfl⟩ : ∃ f, fuel = f + 1 := ⟨fuel - 1, by omega⟩
    have hstep : likeAux (f + 1) (a :: s') ['%'] =
        (likeAux f (a :: s') [] || likeAux f s' ['%']) := rfl
    rw [hstep, ih f (by simp only [List.length_cons] at h; omega)]
    simp

theorem likeAux_lit :
    ∀ (v : List Char), (∀ c ∈ v, ¬ c = '%' ∧ ¬ c = '_') →
    ∀ (s : List Char) (fuel : Nat), s.length + v.length + 2 ≤ fuel →
      likeAux fuel s (v ++ ['%']) = (lowerL v).isPrefixOf (lowerL s) := by
  intro v
  induction v with
  | nil =>
    intro _ s fuel h
    simp only [List.nil_append, lowerL, List.map_nil]
    rw [likeAux_trailing_pct s fuel (by omega)]
    simp [List.isPrefixOf]
  | cons pc v' ih =>
    intro hw s fuel h
    obtain ⟨f, rfl⟩ : ∃ f, fuel = f + 1 := ⟨fuel - 1, by omega⟩
    have hpc := hw pc (by simp)
    cases s with
    | nil =>
      simp [likeAux, hpc.1, lowerL, List.isPrefixOf]
    | cons a s' =>
      have hih := ih (fun c hc => hw c (by simp [hc])) s' f
        (by simp only [List.length_cons] at h ⊢; omega)
      simp only [List.cons_append, likeAux, hpc.1, hpc.2, if_false,
        ite_false, lowerL, List.map_cons, List.isPrefixOf]
      rw [show (lowerL s' : List Char) = s'.map lc from rfl] at hih
      rw [show (lowerL v' : List Char) = v'.map lc from rfl] at hih
      simp [hpc.1, hpc.2, hih]

theorem likeAux_pct_wrap :
    ∀ (v : List Char), (∀ c ∈ v, ¬ c = '%' ∧ ¬ c = '_') →
    ∀ (s : List Char) (fuel : Nat), s.length + v.length + 3 ≤ fuel →
      likeAux fuel s ('%' :: (v ++ ['%'])) = containsL (lowerL s) (lowerL v) := by
  intro v hw s
  induction s with
  | nil =>
    intro fuel h
    obtain ⟨f, rfl⟩ : ∃ f, fuel = f + 1 := ⟨fuel - 1, by omega⟩
    have hstep : likeAux (f + 1) [] ('%' :: (v ++ ['%'])) =
        likeAux f [] (v ++ ['%']) := by
      simp [likeAux]
    rw [hstep, likeAux_lit v hw [] f (by simp only [List.length_nil] at h ⊢; omega)]
    simp [containsL]
  | cons a s' ih =>
    intro fuel h
    obtain ⟨f, rfl⟩ : ∃ f, fuel = f + 1 := ⟨fuel - 1, by omega⟩
    have hstep : likeAux (f + 1) (a :: s') ('%' :: (v ++ ['%'])) =
        (likeAux f (a :: s') (v ++ ['%']) ||
          likeAux f s' ('%' :: (v ++ ['%']))) := rfl
    rw [hstep, likeAux_lit v hw (a :: s') f
        (by simp only [List.length_cons] at h ⊢; omega),
      ih f (by simp only [List.length_cons] at h ⊢; omega)]
    rfl

/-- For a wildcard-free value `v`, `hay ILIKE '%v%'` is exactly the
case-insensitive substring containment the file decorator computes. -/
theorem pgILike_wrap_eq {hay v : String} (hw : noWild v = true) :
    pgILike hay ("%" ++ v ++ "%") =
      containsL (lowerL hay.toList) (lowerL v.toList) := by
  have hmem : ∀ c ∈ v.toList, ¬ c = '%' ∧ ¬ c = '_' := by
    intro c hc
    have := (List.all_eq_true.mp hw) c hc
    simp only [Bool.and_eq_true, Bool.not_eq_true', beq_eq_false_iff_ne,
      ne_eq] at this
    exact this
  have hlist : ("%" ++ v ++ "%").toList = '%' :: (v.toList ++ ['%']) := by
    show ("%" ++ v ++ "%").data = '%' :: (v.data ++ ['%'])
    rw [String.data_append, String.data_append]
    rfl
  unfold pgILike
  rw [hlist]
  exact likeAux_pct_wrap v.toList hmem hay.toList _
    (by simp only [List.length_cons, List.length_append, List.length_cons,
      List.length_nil]; omega)

/-! ## Claim C1: filter, sort-key and projection correspondence -/

/-- The DB filter carrying the same slots as a file filter. -/
def toClientFilter (f : FileClientFilter) : ClientFilter :=
  { last_name_substr := f.last_name_substr,
    first_name_substr := f.first_name_substr,
    middle_name_substr := f.middle_name_substr,
    phone_substr := f.phone_substr, email_substr := f.email_substr,
    passport_series := f.passport_series,
    passport_number := f.passport_number,
    birth_date_from := f.birth_date_from, birth_date_to := f.birth_date_to }

theorem ilikeCond_eq_caseContains {hay : String} {v? : Option String}
    (hw : ∀ s, v? = some s → noWild s = true) :
    ilikeCond hay v? = caseContains hay v? := by
  cases v? with
  | none => rfl
  | some v =>
    by_cases hv : v = ""
    · subst hv; rfl
    · unfold ilikeCond caseContains
      dsimp only
      rw [if_neg hv, if_neg hv, pgILike_wrap_eq (hw v rfl)]

theorem WFidB_exists {o : Option IdVal} (h : WFidB o = true) :
    ∃ n : Int, o = some (.intV n) := by
  cases o with
  | none => exact absurd h (by simp [WFidB])
  | some iv =>
    cases iv with
    | intV n => exact ⟨n, rfl⟩
    | strV s => exact absurd h (by simp [WFidB])
    | otherV t => exact absurd h (by simp [WFidB])

theorem allowedSortKey_mem (b : String) :
    allowedSortKey b = "id" ∨ allowedSortKey b = "last_name" ∨
      allowedSortKey b = "birth_date" := by
  unfold allowedSortKey
  dsimp only
  split_ifs <;> simp

theorem kfunc_eq_sqlOrderKey {today : Date} {c : Client}
    (hWF : WFClient today c) (key : String)
    (hkey : key = "id" ∨ key = "last_name" ∨ key = "birth_date") :
    kfunc key c = .ok (sqlOrderKey key c) := by
  obtain ⟨_, _, _, _, _, _, _, _, _, hid, _, _, _, _, hbne, hbsome, _⟩ := hWF
  obtain ⟨n, hn⟩ := WFidB_exists hid
  rcases hkey with hkey | hkey | hkey <;> subst hkey
  · unfold kfunc sqlOrderKey
    rw [hn]
    by_cases hz : n = 0
    · subst hz; rfl
    · simp [pyOr0, pyToInt, hz]
  · rfl
  · unfold kfunc sqlOrderKey
    rw [if_neg (by decide), if_neg (by decide), if_pos rfl, if_neg hbne,
      if_neg (by decide), if_pos rfl]
    obtain ⟨d, hd⟩ := Option.isSome_iff_exists.mp hbsome
    rw [hd]
    unfold rowDate
    rw [hd]
    rfl

theorem sqlRowPayload_eq {today : Date} {c : Client} (hWF : WFClient today c) :
    sqlRowPayload c = { client_to_dict c with address := none } := by
  obtain ⟨_, _, _, _, _, _, _, _, _, _, _, hts, _, htn, _, _, hrt⟩ := hWF
  unfold sqlRowPayload client_to_dict rowDate
  rw [hts, htn, hrt]

/-- `ClientShort` construction never reads the `address` slot. -/
theorem parseShort_addr_irrel (today : Date) (p : String) (r : RawRecord)
    (x : Option String) :
    parseShort today p { r with address := x } = parseShort today p r := rfl

/-- Evaluation of the file decorator's per-client filter body on a
client whose birth date parses: the loop never raises and computes the
conjunction of its checks. -/
theorem fileKeep_eval {flt : FileClientFilter}
    {dFrom dTo : Option Date} {c : Client} {d : Date}
    (hbne : c.birth_date ≠ "")
    (hd : pyStrptimeDMY? c.birth_date = some d) :
    fileKeep flt dFrom dTo c = .ok (
      caseContains c.last_name flt.last_name_substr &&
      caseContains c.first_name flt.first_name_substr &&
      caseContains c.middle_name flt.middle_name_substr &&
      caseContains c.phone flt.phone_substr &&
      caseContains c.email flt.email_substr &&
      !(isTruthy flt.passport_series &&
        (pyStrip c.passport_series != flt.passport_series.getD "")) &&
      !(isTruthy flt.passport_number &&
        (pyStrip c.passport_number != flt.passport_number.getD "")) &&
      ((match dFrom with | some f => ! dateLtB d f | none => true) &&
       (match dTo with | some t => ! dateLtB t d | none => true))) := by
  have htD : toDateE (some c.birth_date) = .ok (some d) := by
    unfold toDateE
    dsimp only
    rw [if_neg hbne, hd]
  unfold fileKeep
  cases h1 : caseContains c.last_name flt.last_name_substr with
  | false => rw [if_pos (by simp [h1])]; simp
  | true =>
  rw [if_neg (by simp [h1])]
  cases h2 : caseContains c.first_name flt.first_name_substr with
  | false => rw [if_pos (by simp [h2])]; simp [h2]
  | true =>
  rw [if_neg (by simp [h2])]
  cases h3 : caseContains c.middle_name flt.middle_name_substr with
  | false => rw [if_pos (by simp [h3])]; simp [h1, h2, h3]
  | true =>
  rw [if_neg (by simp [h3])]
  cases h4 : caseContains c.phone flt.phone_substr with
  | false => rw [if_pos (by simp [h4])]; simp [h1, h2, h3, h4]
  | true =>
  rw [if_neg (by simp [h4])]
  cases h5 : caseContains c.email flt.email_substr with
  | false => rw [if_pos (by simp [h5])]; simp [h1, h2, h3, h4, h5]
  | true =>
  rw [if_neg (by simp [h5])]
  cases hp1 : (isTruthy flt.passport_series &&
      (pyStrip c.passport_series != flt.passport_series.getD "")) with
  | true => rw [if_pos (by simp [hp1])]; simp [h1, h2, h3, h4, h5, hp1]
  | false =>
  rw [if_neg (by simp [hp1])]
  cases hp2 : (isTruthy flt.passport_number &&
      (pyStrip c.passport_number != flt.passport_number.getD "")) with
  | true => rw [if_pos (by simp [hp2])]; simp [h1, h2, h3, h4, h5, hp1, hp2]
  | false =>
  rw [if_neg (by simp [hp2])]
  simp only [bind, Except.bind, htD]
  cases dFrom with
  | some f =>
    cases hltf : dateLtB d f with
    | true =>
      rw [if_pos (by simp [hltf])]
      simp [h1, h2, h3, h4, h5, hp1, hp2, hltf, pure, Except.pure]
    | false =>
    rw [if_neg (by simp [hltf])]
    cases dTo with
    | some t =>
      cases hltt : dateLtB t d with
      | true =>
        rw [if_pos (by simp [hltt])]
        simp [h1, h2, h3, h4, h5, hp1, hp2, hltf, hltt, pure, Except.pure]
      | false =>
        rw [if_neg (by simp [hltt])]
        simp [h1, h2, h3, h4, h5, hp1, hp2, hltf, hltt, pure, Except.pure]
    | none =>
      rw [if_neg (by simp)]
      simp [h1, h2, h3, h4, h5, hp1, hp2, hltf, pure, Except.pure]
  | none =>
    rw [if_neg (by simp)]
    cases dTo with
    | some t =>
      cases hltt : dateLtB t d with
      | true =>
        rw [if_pos (by simp [hltt])]
        simp [h1, h2, h3, h4, h5, hp1, hp2, hltt, pure, Except.pure]
      | false =>
        rw [if_neg (by simp [hltt])]
        simp [h1, h2, h3, h4, h5, hp1, hp2, hltt, pure, Except.pure]
    | none =>
      rw [if_neg (by simp)]
      simp [h1, h2, h3, h4, h5, hp1, hp2, pure, Except.pure]

/-- On a well-formed client, the file decorator's filter body computes
exactly the SQL `WHERE` predicate, provided the substring slots are
wildcard-free. -/
theorem fileKeep_eq_sqlRowPred {today : Date} {flt : FileClientFilter}
    {dFrom dTo : Option Date} {c : Client} (hWF : WFClient today c)
    (hw1 : ∀ s, flt.last_name_substr = some s → noWild s = true)
    (hw2 : ∀ s, flt.first_name_substr = some s → noWild s = true)
    (hw3 : ∀ s, flt.middle_name_substr = some s → noWild s = true)
    (hw4 : ∀ s, flt.phone_substr = some s → noWild s = true)
    (hw5 : ∀ s, flt.email_substr = some s → noWild s = true) :
    fileKeep flt dFrom dTo c =
      .ok (sqlRowPred (toClientFilter flt) dFrom dTo c) := by
  obtain ⟨_, _, _, _, _, _, _, _, _, _, hps, hts, hpn, htn, hbne, hbsome, _⟩ :=
    hWF
  obtain ⟨d, hd⟩ := Option.isSome_iff_exists.mp hbsome
  have hrow : rowDate c = d := by
    unfold rowDate
    rw [hd]
    rfl
  rw [fileKeep_eval hbne hd]
  unfold sqlRowPred toClientFilter
  dsimp only
  rw [ilikeCond_eq_caseContains hw1, ilikeCond_eq_caseContains hw2,
    ilikeCond_eq_caseContains hw3, ilikeCond_eq_caseContains hw4,
    ilikeCond_eq_caseContains hw5]
  refine congrArg Except.ok ?_
  have hpass1 : (!(isTruthy flt.passport_series &&
      (pyStrip c.passport_series != flt.passport_series.getD ""))) =
      (match flt.passport_series with
       | some v => if v ≠ "" then sqlTrim c.passport_series == v else true
       | none => true) := by
    cases hf : flt.passport_series with
    | none => simp [isTruthy]
    | some v =>
      by_cases hv : v = ""
      · subst hv; simp [isTruthy]
      · rw [hts, hps]
        simp [isTruthy, hv, bne]
  have hpass2 : (!(isTruthy flt.passport_number &&
      (pyStrip c.passport_number != flt.passport_number.getD ""))) =
      (match flt.passport_number with
       | some v => if v ≠ "" then sqlTrim c.passport_number == v else true
       | none => true) := by
    cases hf : flt.passport_number with
    | none => simp [isTruthy]
    | some v =>
      by_cases hv : v = ""
      · subst hv; simp [isTruthy]
      · rw [htn, hpn]
        simp [isTruthy, hv, bne]
  have hdate : ((match dFrom with | some f => ! dateLtB d f | none => true) &&
       (match dTo with | some t => ! dateLtB t d | none => true)) =
      (match dFrom, dTo with
       | some f, some t => dateLeB f (rowDate c) && dateLeB (rowDate c) t
       | some f, none => dateLeB f (rowDate c)
       | none, some t => dateLeB (rowDate c) t
       | none, none => true) := by
    rw [hrow]
    cases dFrom <;> cases dTo <;> simp [not_dateLtB]
  rw [hpass1, hpass2, hdate]


/-- Flipped-comparator version of `stableInsert_map_pair` (for the
descending sort direction). -/
theorem stableInsert_map_pair_rev {α β : Type _} (f : α → β) (le : β → β → Bool) :
    ∀ (l : List α) (a : α),
      stableInsert (fun x y => le y.1 x.1) (f a, a)
        (l.map (fun c => (f c, c))) =
      (stableInsert (fun x y => le (f y) (f x)) a l).map (fun c => (f c, c)) := by
  intro l
  induction l with
  | nil => intro a; rfl
  | cons b bs ih =>
    intro a
    by_cases hab : le (f b) (f a) = true
    · simp [stableInsert, hab]
    · rw [Bool.not_eq_true] at hab
      simp only [List.map_cons, stableInsert, hab, Bool.false_eq_true,
        if_false, List.map_cons]
      rw [ih a]

/-- Flipped-comparator version of `stableSortBy_map_pair`. -/
theorem stableSortBy_map_pair_rev {α β : Type _} (f : α → β) (le : β → β → Bool) :
    ∀ l : List α,
      stableSortBy (fun x y => le y.1 x.1) (l.map (fun c => (f c, c))) =
      (stableSortBy (fun x y => le (f y) (f x)) l).map (fun c => (f c, c)) := by
  intro l
  induction l with
  | nil => rfl
  | cons a as ih =>
    simp only [List.map_cons, stableSortBy]
    rw [ih, stableInsert_map_pair_rev]

/-- The modelled `ORDER BY` permutes its input. -/
theorem mem_dbSortModel {sort? : Option SortSpec} {l : List Client}
    {x : Client} : x ∈ dbSortModel sort? l ↔ x ∈ l := by
  unfold dbSortModel
  dsimp only
  split
  · exact mem_stableSortBy _ x l
  · exact mem_stableSortBy _ x l

/-- On well-formed data whose substring filter values are wildcard-free
and whose date bounds parse, the file decorator's filter stage computes
exactly the rows the SQL `WHERE` predicate keeps. -/
theorem applyFilter_eval {today : Date} {data : List Client}
    (hWF : ∀ c ∈ data, WFClient today c) {flt : FileClientFilter}
    {dFrom dTo : Option Date}
    (hdF : toDateE flt.birth_date_from = .ok dFrom)
    (hdT : toDateE flt.birth_date_to = .ok dTo)
    (hw1 : ∀ s, flt.last_name_substr = some s → noWild s = true)
    (hw2 : ∀ s, flt.first_name_substr = some s → noWild s = true)
    (hw3 : ∀ s, flt.middle_name_substr = some s → noWild s = true)
    (hw4 : ∀ s, flt.phone_substr = some s → noWild s = true)
    (hw5 : ∀ s, flt.email_substr = some s → noWild s = true) :
    applyFilter (some flt) data =
      .ok (data.filter (sqlRowPred (toClientFilter flt) dFrom dTo)) := by
  unfold applyFilter
  simp only [bind, Except.bind, hdF, hdT]
  exact filterE_ok_of_pointwise (fun c hc =>
    fileKeep_eq_sqlRowPred (hWF c hc) hw1 hw2 hw3 hw4 hw5)

/-- On well-formed data the file decorator's sort stage succeeds and
produces exactly the modelled SQL `ORDER BY` order. -/
theorem applySort_eval {today : Date} {l : List Client}
    (hWF : ∀ c ∈ l, WFClient today c) (sort? : Option SortSpec) :
    applySort sort? l = .ok (dbSortModel sort? l) := by
  have hproj : ∀ (col : String) (L : List Client),
      (L.map (fun c => (sqlOrderKey col c, c))).map (fun p => p.2) = L := by
    intro col L
    induction L with
    | nil => rfl
    | cons a as ih => simp only [List.map_cons]; rw [ih]
  have main : ∀ col : String,
      col = "id" ∨ col = "last_name" ∨ col = "birth_date" → ∀ asc : Bool,
      (Except.bind (mapE (fun c => (kfunc col c).map (fun k => (k, c))) l)
        (fun keyed =>
          pure ((if asc then stableSortBy (fun a b => keyLe a.1 b.1) keyed
            else stableSortBy (fun a b => keyLe b.1 a.1) keyed).map
              (fun p => p.2))) : Except Unit (List Client)) =
      .ok (if asc then
          stableSortBy
            (fun a b => keyLe (sqlOrderKey col a) (sqlOrderKey col b)) l
        else
          stableSortBy
            (fun a b => keyLe (sqlOrderKey col b) (sqlOrderKey col a)) l) := by
    intro col hcol asc
    have hkeyed : mapE (fun c => (kfunc col c).map (fun k => (k, c))) l =
        .ok (l.map (fun c => (sqlOrderKey col c, c))) :=
      mapE_ok_of_pointwise (fun c hc => by
        rw [kfunc_eq_sqlOrderKey (hWF c hc) col hcol]; rfl)
    rw [hkeyed]
    simp only [Except.bind]
    cases asc with
    | true =>
      simp only [eq_self_iff_true, if_true]
      rw [stableSortBy_map_pair (sqlOrderKey col) keyLe l, hproj col]
      rfl
    | false =>
      simp only [Bool.false_eq_true, if_false]
      rw [stableSortBy_map_pair_rev (sqlOrderKey col) keyLe l, hproj col]
      rfl
  cases sort? with
  | none => exact main "id" (Or.inl rfl) true
  | some s => exact main (allowedSortKey s.by_) (allowedSortKey_mem s.by_) s.asc

/-- On a well-formed filtered set, the two decorators' page projections
(`ClientShort` from `to_dict` versus from the SQL row payload) agree. -/
theorem c1_pipeline_eq {today : Date} {filtered : List Client}
    (hWFf : ∀ c ∈ filtered, WFClient today c) (sort? : Option SortSpec)
    (off cnt : Nat) (prefer : String) :
    mapE (fun c => parseShort today prefer (client_to_dict c))
        (((dbSortModel sort? filtered).drop off).take cnt) =
      mapE (fun row => parseShort today prefer (sqlRowPayload row))
        (((dbSortModel sort? filtered).drop off).take cnt) := by
  refine mapE_congr (fun c hc => ?_)
  have hcf : c ∈ filtered :=
    mem_dbSortModel.mp (List.mem_of_mem_drop (List.mem_of_mem_take hc))
  rw [sqlRowPayload_eq (hWFf c hcf)]
  exact (parseShort_addr_irrel today prefer (client_to_dict c) none).symm

/-- The file-backend repository state holding exactly the serialized
form of a list of clients in its `_clean` source. -/
def fileStateOf (rawAny : Option (List RawRecord)) (data : List Client) :
    RepoState :=
  { raw := rawAny, clean := some (data.map client_to_dict) }


/-- **C1 (amended).** For every filter specification whose substring
values are free of the SQL LIKE wildcard characters `%` and `_` and
whose date bounds parse, and for every sort specification, page index
and page size, the file-backend decorator run on the serialized form of
a well-formed data set and the SQL-backend decorator run on the same
data as a table return the same `get_count` value and the very same
`get_k_n_short_list` page — in particular identically-ordered id
sequences.  (Unamended, the claim fails: the decorator interpolates the
substring into a `%value%` ILIKE pattern without escaping wildcards.) -/
theorem c1_filter_sort_equivalence_amended (today : Date)
    (rawAny : Option (List RawRecord)) (data : List Client)
    (fltF? : Option FileClientFilter) (sort? : Option SortSpec)
    (k n : Int) (prefer : String)
    (hWF : ∀ c ∈ data, WFClient today c)
    (hflt : ∀ flt, fltF? = some flt →
      (∀ s, flt.last_name_substr = some s → noWild s = true) ∧
      (∀ s, flt.first_name_substr = some s → noWild s = true) ∧
      (∀ s, flt.middle_name_substr = some s → noWild s = true) ∧
      (∀ s, flt.phone_substr = some s → noWild s = true) ∧
      (∀ s, flt.email_substr = some s → noWild s = true) ∧
      (∃ dF, toDateE flt.birth_date_from = .ok dF) ∧
      (∃ dT, toDateE flt.birth_date_to = .ok dT)) :
    file_get_count today (fileStateOf rawAny data) fltF? =
      db_get_count data (fltF?.map toClientFilter) ∧
    file_get_k_n_short_list today (fileStateOf rawAny data) k n fltF?
        sort? prefer =
      db_get_k_n_short_list today data k n (fltF?.map toClientFilter)
        sort? prefer ∧
    ∀ pf pd,
      file_get_k_n_short_list today (fileStateOf rawAny data) k n fltF?
          sort? prefer = .ok pf →
      db_get_k_n_short_list today data k n (fltF?.map toClientFilter)
          sort? prefer = .ok pd →
      pf.map (fun s => s.id) = pd.map (fun s => s.id) := by
  have hload : fileLoadClients today (fileStateOf rawAny data) = .ok data :=
    mapE_roundtrip data (fun c hc => parseClient_roundtrip (hWF c hc))
  cases fltF? with
  | none =>
    have hfil : applyFilter none data = Except.ok data := rfl
    have h1 : file_get_count today (fileStateOf rawAny data) none =
        db_get_count data ((none : Option FileClientFilter).map toClientFilter) := by
      simp only [Option.map_none']
      unfold file_get_count db_get_count buildWhereDates
      simp only [hload, Except.mapError, bind, Except.bind, hfil, pure,
        Except.pure]
    have h2 : file_get_k_n_short_list today (fileStateOf rawAny data) k n
          none sort? prefer =
        db_get_k_n_short_list today data k n
          ((none : Option FileClientFilter).map toClientFilter) sort? prefer := by
      simp only [Option.map_none']
      unfold file_get_k_n_short_list db_get_k_n_short_list buildWhereDates
      by_cases hkn : k > 0 ∧ n > 0
      · rw [if_neg (not_not_intro hkn), if_neg (not_not_intro hkn)]
        have hsort := applySort_eval hWF sort?
        simp only [hload, Except.mapError, bind, Except.bind, hfil, hsort,
          pure, Except.pure]
        rw [c1_pipeline_eq hWF sort? ((k - 1) * n).toNat n.toNat prefer]
      · rw [if_pos hkn, if_pos hkn]
    refine ⟨h1, h2, fun pf pd hpf hpd => ?_⟩
    rw [h2] at hpf
    rw [hpf] at hpd
    injection hpd with h3
    rw [h3]
  | some flt =>
    obtain ⟨hw1, hw2, hw3, hw4, hw5, ⟨dF, hdF⟩, ⟨dT, hdT⟩⟩ := hflt flt rfl
    have hfil := applyFilter_eval hWF hdF hdT hw1 hw2 hw3 hw4 hw5
    have hWFf : ∀ c ∈ data.filter (sqlRowPred (toClientFilter flt) dF dT),
        WFClient today c := fun c hc => hWF c (List.mem_of_mem_filter hc)
    have hbw : buildWhereDates (some (toClientFilter flt)) = .ok (dF, dT) := by
      unfold buildWhereDates
      have hf1 : toDateE (toClientFilter flt).birth_date_from = .ok dF := hdF
      have hf2 : toDateE (toClientFilter flt).birth_date_to = .ok dT := hdT
      simp only [bind, Except.bind, hf1, hf2, pure, Except.pure]
    have h1 : file_get_count today (fileStateOf rawAny data) (some flt) =
        db_get_count data ((some flt).map toClientFilter) := by
      simp only [Option.map_some']
      unfold file_get_count db_get_count
      simp only [hload, Except.mapError, bind, Except.bind, hfil, hbw, pure,
        Except.pure]
    have h2 : file_get_k_n_short_list today (fileStateOf rawAny data) k n
          (some flt) sort? prefer =
        db_get_k_n_short_list today data k n ((some flt).map toClientFilter)
          sort? prefer := by
      simp only [Option.map_some']
      unfold file_get_k_n_short_list db_get_k_n_short_list
      by_cases hkn : k > 0 ∧ n > 0
      · rw [if_neg (not_not_intro hkn), if_neg (not_not_intro hkn)]
        have hsort := applySort_eval hWFf sort?
        simp only [hload, Except.mapError, bind, Except.bind, hfil, hbw,
          hsort, pure, Except.pure]
        rw [c1_pipeline_eq hWFf sort? ((k - 1) * n).toNat n.toNat prefer]
      · rw [if_pos hkn, if_pos hkn]
    refine ⟨h1, h2, fun pf pd hpf hpd => ?_⟩
    rw [h2] at hpf
    rw [hpf] at hpd
    injection hpd with h3
    rw [h3]

/-- Counterexample to the unamended C1 claim: the substring value
`"Iv_nov"` (containing the LIKE wildcard `_`) is not a substring of
`"Ivanov"`, so the file backend counts 0, but interpolated unescaped
into the `%value%` ILIKE pattern it matches, so the SQL backend counts
1 on logically identical data. -/
theorem c1_counterexample :
    file_get_count sampleToday (fileStateOf none [sampleClient])
        (some { last_name_substr := some "Iv_nov" }) = .ok 0 ∧
    db_get_count [sampleClient]
        (some (toClientFilter { last_name_substr := some "Iv_nov" })) =
      .ok 1 := by
  decide

/-- Concrete instance of the amended C1 equivalence: two well-formed
clients, a wildcard-free substring filter and a descending-capable sort
specification give equal pages across the two backends. -/
theorem c1_filter_sort_equivalence_amended_witness :
    file_get_k_n_short_list sampleToday
        (fileStateOf none [sampleClient, sampleClient2]) 1 2
        (some { last_name_substr := some "v" })
        (some { by_ := "last_name", asc := true }) "phone" =
      db_get_k_n_short_list sampleToday [sampleClient, sampleClient2] 1 2
        ((some { last_name_substr := some "v" } :
            Option FileClientFilter).map toClientFilter)
        (some { by_ := "last_name", asc := true }) "phone" :=
  (c1_filter_sort_equivalence_amended sampleToday none
      [sampleClient, sampleClient2] (some { last_name_substr := some "v" })
      (some { by_ := "last_name", asc := true }) 1 2 "phone"
      (by decide)
      (fun flt hf => by
        injection hf with h
        subst h
        exact ⟨fun s hs => by injection hs with h2; subst h2; decide,
          fun s hs => Option.noConfusion hs,
          fun s hs => Option.noConfusion hs,
          fun s hs => Option.noConfusion hs,
          fun s hs => Option.noConfusion hs,
          ⟨none, rfl⟩, ⟨none, rfl⟩⟩)).2.1

end Lombard
